import Mathlib

/-!
Shallow embedding of `add_smc_features.py` (SMC feature engine of the
trading-bot repository).

Modelling conventions:
* A pandas column is a function `Nat → Option ℚ`; `none` models NaN
  (pandas missing value).  All comparisons (`<`, `>`, `==`) on columns
  return `false` whenever either operand is NaN, exactly as numpy does.
* A DataFrame is an association list of named columns.  `setCol` models
  `df['name'] = col` (replace the column if present, append otherwise),
  `dropCol` models `df.drop(columns, axis=1)`.
* `rollingMax`/`rollingMin`/`rollingMean`/`rollingStd` model
  `Series.rolling(window=w).agg()` with the pandas default
  `min_periods = w`: the result at position `i` is defined iff the full
  window of `w` in-range non-NaN values exists.
* `centeredMax`/`centeredMin` model `Series.rolling(window=w, center=True)`:
  pandas places the label at offset `(w-1)/2`, so the window at position
  `i` covers indices `[i + o + 1 - w, i + o]` with `o = (w-1)/2` (for an
  even `w` the extra bar falls on the past side).
* Arithmetic is exact rational arithmetic; the source uses binary floats.
  None of the verified properties depends on rounding.  `np.log` and the
  square root inside `Series.std()` are irrational-valued; they are taken
  as uninterpreted parameters (`log : ℚ → Option ℚ`, `sqrt : ℚ → ℚ`) —
  no claim inspects their values, only whether they are defined.
-/

abbrev Val := Option ℚ

abbrev Col := Nat → Val

abbrev DF := List (String × Col)

/-- Column lookup, `df['name']`; a missing column reads as all-NaN. -/
def getCol : DF → String → Col
  | [], _ => fun _ => none
  | p :: rest, name => if p.1 = name then p.2 else getCol rest name

/-- Column assignment `df['name'] = c`: replace the (first) column of that
name if present, append it at the end otherwise, as pandas does. -/
def setCol : DF → String → Col → DF
  | [], name, c => [(name, c)]
  | p :: rest, name, c =>
      if p.1 = name then (name, c) :: rest else p :: setCol rest name c

/-- Drop every column of the given name, `df.drop([name], axis=1)`. -/
def dropCol : DF → String → DF
  | [], _ => []
  | p :: rest, name =>
      if p.1 = name then dropCol rest name else p :: dropCol rest name

/-- Whether a column of the given name is present. -/
def hasCol : DF → String → Bool
  | [], _ => false
  | p :: rest, name => p.1 == name || hasCol rest name

/-- Strict `<` on values with numpy NaN semantics: any comparison with
NaN is `false`. -/
def vlt (a b : Val) : Bool :=
  match a, b with
  | some x, some y => decide (x < y)
  | _, _ => false

/-- Equality `==` on values with numpy NaN semantics: any comparison with
NaN is `false` (in particular `NaN == NaN` is `false`). -/
def veq (a b : Val) : Bool :=
  match a, b with
  | some x, some y => decide (x = y)
  | _, _ => false

/-- NaN-propagating subtraction. -/
def vsub (a b : Val) : Val :=
  match a, b with
  | some x, some y => some (x - y)
  | _, _ => none

/-- NaN-propagating multiplication. -/
def vmul (a b : Val) : Val :=
  match a, b with
  | some x, some y => some (x * y)
  | _, _ => none

/-- NaN-propagating division (exact rational division; the claims never
exercise a zero denominator). -/
def vdiv (a b : Val) : Val :=
  match a, b with
  | some x, some y => some (x / y)
  | _, _ => none

/-- A pandas boolean cell: `True ↦ 1`, `False ↦ 0`, never NaN. -/
def boolVal (b : Bool) : Val :=
  some (if b then 1 else 0)

/-- Indices of the trailing window of length `w` ending at `i`
(meaningful when `w ≤ i + 1`). -/
def windowIdx (i w : Nat) : List Nat :=
  (List.range w).map (fun j => i + 1 - w + j)

/-- Collect a list of values, failing on the first NaN (pandas with
`min_periods = window` treats any NaN in the window as fatal). -/
def optList : List Val → Option (List ℚ)
  | [] => some []
  | none :: _ => none
  | some q :: vs => (optList vs).map (fun qs => q :: qs)

/-- Maximum of a nonempty list of rationals (`0` on the empty list,
which never occurs under the rolling guards). -/
def listMax : List ℚ → ℚ
  | [] => 0
  | a :: as => as.foldl max a

/-- Minimum of a nonempty list of rationals. -/
def listMin : List ℚ → ℚ
  | [] => 0
  | a :: as => as.foldl min a

/-- `Series.rolling(window=w).max()` over a series of length `n`. -/
def rollingMax (c : Col) (n w : Nat) : Col := fun i =>
  if w ≤ i + 1 ∧ i < n then
    match optList ((windowIdx i w).map c) with
    | some vs => vs.max?
    | none => none
  else none

/-- `Series.rolling(window=w).min()` over a series of length `n`. -/
def rollingMin (c : Col) (n w : Nat) : Col := fun i =>
  if w ≤ i + 1 ∧ i < n then
    match optList ((windowIdx i w).map c) with
    | some vs => vs.min?
    | none => none
  else none

/-- `Series.rolling(window=w).mean()` over a series of length `n`. -/
def rollingMean (c : Col) (n w : Nat) : Col := fun i =>
  if w ≤ i + 1 ∧ i < n then
    match optList ((windowIdx i w).map c) with
    | some vs => some (vs.sum / (w : ℚ))
    | none => none
  else none

/-- Sample variance with `ddof = 1`, as inside `Series.std()`. -/
def sampleVar (vs : List ℚ) (w : Nat) : ℚ :=
  let m := vs.sum / (w : ℚ)
  (vs.map (fun x => (x - m) ^ 2)).sum / ((w - 1 : Nat) : ℚ)

/-- `Series.rolling(window=w).std()`; `sqrt` is the uninterpreted square
root, whose value no claim inspects. -/
def rollingStd (sqrt : ℚ → ℚ) (c : Col) (n w : Nat) : Col := fun i =>
  if w ≤ i + 1 ∧ i < n then
    match optList ((windowIdx i w).map c) with
    | some vs => some (sqrt (sampleVar vs w))
    | none => none
  else none

/-- `Series.rolling(window=w, center=True).max()`: pandas computes the
trailing aggregate and shifts the label back by `o = (w-1)/2`, so the
window at `i` is `[i + o + 1 - w, i + o]`, defined iff fully in range. -/
def centeredMax (c : Col) (n w : Nat) : Col := fun i =>
  let o := (w - 1) / 2
  if w ≤ i + 1 + o ∧ i + 1 + o ≤ n then
    match optList ((windowIdx (i + o) w).map c) with
    | some vs => vs.max?
    | none => none
  else none

/-- `Series.rolling(window=w, center=True).min()`. -/
def centeredMin (c : Col) (n w : Nat) : Col := fun i =>
  let o := (w - 1) / 2
  if w ≤ i + 1 + o ∧ i + 1 + o ≤ n then
    match optList ((windowIdx (i + o) w).map c) with
    | some vs => vs.min?
    | none => none
  else none

/-- `Series.shift(k)`: NaN for the first `k` positions. -/
def shiftCol (c : Col) (k : Nat) : Col := fun i =>
  if k ≤ i then c (i - k) else none

/-- Source `detect_order_blocks(df, lookback, volume_threshold)`
(add_smc_features.py lines 9-29): centered-rolling pivot highs/lows,
volume above `volume_threshold` times the trailing mean volume, flags
`ob_high`/`ob_low`, temporary pivot columns dropped before returning. -/
def detect_order_blocks (df : DF) (n lookback : Nat) (volume_threshold : ℚ) : DF :=
  let high := getCol df "high"
  let low := getCol df "low"
  let volume := getCol df "volume"
  let pivot_high : Nat → Bool := fun i => veq (centeredMax high n lookback i) (high i)
  let pivot_low : Nat → Bool := fun i => veq (centeredMin low n lookback i) (low i)
  let avg_vol := rollingMean volume n lookback
  let high_volume : Nat → Bool := fun i =>
    vlt (vmul (avg_vol i) (some volume_threshold)) (volume i)
  let df1 := setCol df "pivot_high" (fun i => boolVal (pivot_high i))
  let df2 := setCol df1 "pivot_low" (fun i => boolVal (pivot_low i))
  let df3 := setCol df2 "ob_high" (fun i => boolVal (pivot_high i && high_volume i))
  let df4 := setCol df3 "ob_low" (fun i => boolVal (pivot_low i && high_volume i))
  dropCol (dropCol df4 "pivot_high") "pivot_low"

/-- Source `detect_fair_value_gaps(df, gap_threshold)` (lines 31-52):
bullish gap when `low > prev_high`, bearish when `high < prev_low`,
relative magnitudes, then gaps at or below `gap_threshold` zeroed. -/
def detect_fair_value_gaps (df : DF) (_n : Nat) (gap_threshold : ℚ) : DF :=
  let high := getCol df "high"
  let low := getCol df "low"
  let prev_high := shiftCol high 1
  let prev_low := shiftCol low 1
  let fvg_bull0 : Col := fun i =>
    if vlt (prev_high i) (low i)
    then vdiv (vsub (low i) (prev_high i)) (prev_high i) else some 0
  let fvg_bear0 : Col := fun i =>
    if vlt (high i) (prev_low i)
    then vdiv (vsub (prev_low i) (high i)) (prev_low i) else some 0
  let fvg_bull : Col := fun i =>
    if vlt (some gap_threshold) (fvg_bull0 i) then fvg_bull0 i else some 0
  let fvg_bear : Col := fun i =>
    if vlt (some gap_threshold) (fvg_bear0 i) then fvg_bear0 i else some 0
  setCol (setCol df "fvg_bull" fvg_bull) "fvg_bear" fvg_bear

/-- Source `detect_liquidity_sweeps(df, lookback, reversal_threshold)`
(lines 54-75): break of the shifted trailing extreme plus a same-bar
reversal beyond `reversal_threshold`. -/
def detect_liquidity_sweeps (df : DF) (n lookback : Nat) (reversal_threshold : ℚ) : DF :=
  let low := getCol df "low"
  let high := getCol df "high"
  let opn := getCol df "open"
  let close := getCol df "close"
  let rolling_min_low := shiftCol (rollingMin low n lookback) 1
  let rolling_max_high := shiftCol (rollingMax high n lookback) 1
  let break_below : Nat → Bool := fun i => vlt (low i) (rolling_min_low i)
  let reversal_up : Nat → Bool := fun i =>
    vlt (some reversal_threshold) (vdiv (vsub (close i) (opn i)) (opn i))
  let break_above : Nat → Bool := fun i => vlt (rolling_max_high i) (high i)
  let reversal_down : Nat → Bool := fun i =>
    vlt (some reversal_threshold) (vdiv (vsub (opn i) (close i)) (opn i))
  let df1 := setCol df "liq_sweep_bull" (fun i => boolVal (break_below i && reversal_up i))
  setCol df1 "liq_sweep_bear" (fun i => boolVal (break_above i && reversal_down i))

/-- Source `detect_break_of_structure(df, lookback)` (lines 77-91):
`bos_bull = high > shifted trailing max high`,
`bos_bear = low < shifted trailing min low`. -/
def detect_break_of_structure (df : DF) (n lookback : Nat) : DF :=
  let low := getCol df "low"
  let high := getCol df "high"
  let rolling_max_high := shiftCol (rollingMax high n lookback) 1
  let rolling_min_low := shiftCol (rollingMin low n lookback) 1
  let df1 := setCol df "bos_bull" (fun i => boolVal (vlt (rolling_max_high i) (high i)))
  setCol df1 "bos_bear" (fun i => boolVal (vlt (low i) (rolling_min_low i)))

/-- The `log_return` column of the source `add_raw_features` (line 103):
`np.log(close / close.shift(1))`, NaN-propagating, `log` uninterpreted. -/
def logReturnCol (log : ℚ → Option ℚ) (close : Col) : Col := fun i =>
  match close i, shiftCol close 1 i with
  | some a, some b => log (a / b)
  | _, _ => none

/-- Source `add_raw_features(df, lags=[1,5,10])` (lines 93-108): lagged
close/volume (the loop over the default lags `[1, 5, 10]` is unrolled),
log returns, and the 20-bar rolling standard deviation of the returns. -/
def add_raw_features (log : ℚ → Option ℚ) (sqrt : ℚ → ℚ) (df : DF) (n : Nat) : DF :=
  let close := getCol df "close"
  let volume := getCol df "volume"
  let df1 := setCol df "close_lag_1" (shiftCol close 1)
  let df2 := setCol df1 "volume_lag_1" (shiftCol volume 1)
  let df3 := setCol df2 "close_lag_5" (shiftCol close 5)
  let df4 := setCol df3 "volume_lag_5" (shiftCol volume 5)
  let df5 := setCol df4 "close_lag_10" (shiftCol close 10)
  let df6 := setCol df5 "volume_lag_10" (shiftCol volume 10)
  let log_return : Col := logReturnCol log close
  let df7 := setCol df6 "log_return" log_return
  setCol df7 "volatility_20" (rollingStd sqrt log_return n 20)

/-- Source `add_smc_features(df)` (lines 110-120): the four detectors in
sequence, each with its default parameters. -/
def add_smc_features (df : DF) (n : Nat) : DF :=
  detect_break_of_structure
    (detect_liquidity_sweeps
      (detect_fair_value_gaps
        (detect_order_blocks df n 20 (3 / 2)) n (1 / 1000))
      n 20 (1 / 500))
    n 20

/-- The feature-construction part of `main` (lines 122-156):
`add_raw_features` then `add_smc_features`.  `main` has no raising code
path of its own (and wraps everything in a catch-all handler), so the
embedding is a total function; the terminal `df.dropna(inplace=True)` is
modelled separately by `survivors`. -/
def buildFeatureTable (log : ℚ → Option ℚ) (sqrt : ℚ → ℚ) (df : DF) (n : Nat) : DF :=
  add_smc_features (add_raw_features log sqrt df n) n

/-- Row indices that survive `df.dropna()`: rows with no NaN in any
column. -/
def survivors (df : DF) (n : Nat) : List Nat :=
  (List.range n).filter (fun i => df.all (fun p => (p.2 i).isSome))

/-- A column holding the given values on the first `n` positions. -/
def inRange (f : Nat → ℚ) (n : Nat) : Col := fun i =>
  if i < n then some (f i) else none

/-- An input table with the six base columns of the fetched CSV that the
claims refer to (timestamp index plus OHLCV). -/
def mkDF (ts o h l c v : Nat → ℚ) (n : Nat) : DF :=
  [("timestamp", inRange ts n), ("open", inRange o n), ("high", inRange h n),
   ("low", inRange l n), ("close", inRange c n), ("volume", inRange v n)]

/-! ### Specification-side definitions

These follow the wording of the design spec and are compared with the
source-derived definitions above in the refinement theorems below. -/

/-- Spec 4.4/4.5: the maximum of the highs over the `L` bars strictly
preceding bar `t` (trailing window shifted by one, current bar excluded). -/
def priorHigh (hi : Nat → ℚ) (L t : Nat) : ℚ :=
  listMax ((windowIdx (t - 1) L).map hi)

/-- Spec 4.4/4.5: the minimum of the lows over the `L` bars strictly
preceding bar `t`. -/
def priorLow (lo : Nat → ℚ) (L t : Nat) : ℚ :=
  listMin ((windowIdx (t - 1) L).map lo)

/-- Spec 4.2, bullish side: bar `t` is flagged when its high equals the
maximum of the centered `w`-bar window around `t` (the window must exist
within the `n` bars; with `o = (w-1)/2` it covers `[t + o + 1 - w, t + o]`,
the reference convention for even `w`) and its volume exceeds `vthr`
times the trailing `w`-bar mean volume, the mean including bar `t`. -/
def obHighSpec (hi vol : Nat → ℚ) (n w : Nat) (vthr : ℚ) (t : Nat) : Prop :=
  (w ≤ t + 1 + (w - 1) / 2 ∧ t + 1 + (w - 1) / 2 ≤ n ∧
    ((windowIdx (t + (w - 1) / 2) w).map hi).max? = some (hi t)) ∧
  (w ≤ t + 1 ∧ t < n ∧ vthr * (((windowIdx t w).map vol).sum / (w : ℚ)) < vol t)

/-- Spec 4.2, bearish side: pivot low with the same volume condition. -/
def obLowSpec (lo vol : Nat → ℚ) (n w : Nat) (vthr : ℚ) (t : Nat) : Prop :=
  (w ≤ t + 1 + (w - 1) / 2 ∧ t + 1 + (w - 1) / 2 ≤ n ∧
    ((windowIdx (t + (w - 1) / 2) w).map lo).min? = some (lo t)) ∧
  (w ≤ t + 1 ∧ t < n ∧ vthr * (((windowIdx t w).map vol).sum / (w : ℚ)) < vol t)

/-- Spec 4.3: raw relative bullish gap at bar `t`. -/
def rawBull (h l : Nat → ℚ) (t : Nat) : ℚ := (l t - h (t - 1)) / h (t - 1)

/-- Spec 4.3: raw relative bearish gap at bar `t`. -/
def rawBear (h l : Nat → ℚ) (t : Nat) : ℚ := (l (t - 1) - h t) / l (t - 1)

/-! ### Derived tables and concrete inputs used by the theorems -/

/-- The series with both sweep and break-of-structure columns: liquidity
sweeps followed by break of structure, as in the pipeline, with a common
`lookback`. -/
def sweepsAndBos (ts o h l c v : Nat → ℚ) (n L : Nat) (rthr : ℚ) : DF :=
  detect_break_of_structure
    (detect_liquidity_sweeps (mkDF ts o h l c v n) n L rthr) n L

/-- Values of a rational list read as a series (0 beyond the end). -/
def qList (l : List ℚ) : Nat → ℚ := fun i => l.getD i 0

/-- A concrete stand-in for the uninterpreted `np.log`. -/
def log0 : ℚ → Option ℚ := fun _ => some 0

/-- A concrete stand-in for the uninterpreted square root. -/
def sqrt0 : ℚ → ℚ := fun _ => 0

/-- The spec's concrete 3-bar scenario: bars
`(100,105,98,102,1000), (102,110,101,108,1200), (108,109,95,97,5000)`. -/
def mkC3 : DF :=
  mkDF (qList [0, 1, 2]) (qList [100, 102, 108]) (qList [105, 110, 109])
    (qList [98, 101, 95]) (qList [102, 108, 97]) (qList [1000, 1200, 5000]) 3

/-- The 3-bar scenario run through the sweep and break-of-structure
detectors with `lookback = 2` and `reversal_threshold = 0.002`. -/
def dfC3out : DF :=
  detect_break_of_structure (detect_liquidity_sweeps mkC3 3 2 (1 / 500)) 3 2

/-- A 2-bar series violating the bar invariant twice over: bar 0 has
`high = 90 < 101 = low`, and the timestamps `10, 5` are decreasing. -/
def mkInv : DF :=
  mkDF (qList [10, 5]) (qList [100, 100]) (qList [90, 100])
    (qList [101, 95]) (qList [100, 98]) (qList [1, 1]) 2

/-- The full column list of the produced feature table, in output order. -/
def featureColumns : List String :=
  ["timestamp", "open", "high", "low", "close", "volume",
   "close_lag_1", "volume_lag_1", "close_lag_5", "volume_lag_5",
   "close_lag_10", "volume_lag_10", "log_return", "volatility_20",
   "ob_high", "ob_low", "fvg_bull", "fvg_bear",
   "liq_sweep_bull", "liq_sweep_bear", "bos_bull", "bos_bear"]

/-- The six input columns owned by the caller. -/
def baseNames : List String :=
  ["timestamp", "open", "high", "low", "close", "volume"]

/-! ### Packaged properties (conclusions of the larger theorems) -/

/-- The four sweep/break-of-structure columns agree with the spec's
closed-form formulas over the shifted trailing extremes. -/
def sweepBosProp (ts o h l c v : Nat → ℚ) (n L : Nat) (rthr : ℚ) (t : Nat) : Prop :=
  (getCol (sweepsAndBos ts o h l c v n L rthr) "bos_bull" t = some 1 ↔
    priorHigh h L t < h t) ∧
  (getCol (sweepsAndBos ts o h l c v n L rthr) "bos_bear" t = some 1 ↔
    l t < priorLow l L t) ∧
  (getCol (sweepsAndBos ts o h l c v n L rthr) "liq_sweep_bull" t = some 1 ↔
    l t < priorLow l L t ∧ rthr < (c t - o t) / o t) ∧
  (getCol (sweepsAndBos ts o h l c v n L rthr) "liq_sweep_bear" t = some 1 ↔
    priorHigh h L t < h t ∧ rthr < (o t - c t) / o t)

/-- Characterisation of the two fair-value-gap columns at bar `t`:
always defined and nonnegative, zero at the first bar, equal to the raw
relative gap when the gap exists and exceeds the threshold, zero when it
is absent or at most the threshold. -/
def fvgProp (ts o h l c v : Nat → ℚ) (n : Nat) (g : ℚ) (t : Nat) : Prop :=
  (∃ q, getCol (detect_fair_value_gaps (mkDF ts o h l c v n) n g) "fvg_bull" t = some q ∧ 0 ≤ q) ∧
  (∃ q, getCol (detect_fair_value_gaps (mkDF ts o h l c v n) n g) "fvg_bear" t = some q ∧ 0 ≤ q) ∧
  (t = 0 →
    getCol (detect_fair_value_gaps (mkDF ts o h l c v n) n g) "fvg_bull" t = some 0 ∧
    getCol (detect_fair_value_gaps (mkDF ts o h l c v n) n g) "fvg_bear" t = some 0) ∧
  (0 < t → h (t - 1) < l t → g < rawBull h l t →
    getCol (detect_fair_value_gaps (mkDF ts o h l c v n) n g) "fvg_bull" t = some (rawBull h l t)) ∧
  (0 < t → (¬ h (t - 1) < l t ∨ rawBull h l t ≤ g) →
    getCol (detect_fair_value_gaps (mkDF ts o h l c v n) n g) "fvg_bull" t = some 0) ∧
  (0 < t → h t < l (t - 1) → g < rawBear h l t →
    getCol (detect_fair_value_gaps (mkDF ts o h l c v n) n g) "fvg_bear" t = some (rawBear h l t)) ∧
  (0 < t → (¬ h t < l (t - 1) ∨ rawBear h l t ≤ g) →
    getCol (detect_fair_value_gaps (mkDF ts o h l c v n) n g) "fvg_bear" t = some 0)

/-- The six boolean SMC columns of the full pipeline are always defined,
and carry `false` wherever their own rolling inputs are undefined: the
four shifted-trailing columns on the first `lookback = 20` bars, the two
order-block columns where the trailing mean volume (first 19 bars) or
the centered pivot window (first 10 bars, or within 9 bars of the end)
is undefined. -/
def smcGuardProp (log : ℚ → Option ℚ) (sqrt : ℚ → ℚ)
    (ts o h l c v : Nat → ℚ) (n t : Nat) : Prop :=
  ((getCol (buildFeatureTable log sqrt (mkDF ts o h l c v n) n) "ob_high" t).isSome = true ∧
   (getCol (buildFeatureTable log sqrt (mkDF ts o h l c v n) n) "ob_low" t).isSome = true ∧
   (getCol (buildFeatureTable log sqrt (mkDF ts o h l c v n) n) "liq_sweep_bull" t).isSome = true ∧
   (getCol (buildFeatureTable log sqrt (mkDF ts o h l c v n) n) "liq_sweep_bear" t).isSome = true ∧
   (getCol (buildFeatureTable log sqrt (mkDF ts o h l c v n) n) "bos_bull" t).isSome = true ∧
   (getCol (buildFeatureTable log sqrt (mkDF ts o h l c v n) n) "bos_bear" t).isSome = true) ∧
  (t < 20 →
    getCol (buildFeatureTable log sqrt (mkDF ts o h l c v n) n) "liq_sweep_bull" t = some 0 ∧
    getCol (buildFeatureTable log sqrt (mkDF ts o h l c v n) n) "liq_sweep_bear" t = some 0 ∧
    getCol (buildFeatureTable log sqrt (mkDF ts o h l c v n) n) "bos_bull" t = some 0 ∧
    getCol (buildFeatureTable log sqrt (mkDF ts o h l c v n) n) "bos_bear" t = some 0) ∧
  (t + 1 < 20 →
    getCol (buildFeatureTable log sqrt (mkDF ts o h l c v n) n) "ob_high" t = some 0 ∧
    getCol (buildFeatureTable log sqrt (mkDF ts o h l c v n) n) "ob_low" t = some 0) ∧
  (t < 10 ∨ n < t + 10 →
    getCol (buildFeatureTable log sqrt (mkDF ts o h l c v n) n) "ob_high" t = some 0 ∧
    getCol (buildFeatureTable log sqrt (mkDF ts o h l c v n) n) "ob_low" t = some 0)


/-- Column names of the table after `add_raw_features`. -/
def rawColumns : List String :=
  baseNames ++ ["close_lag_1", "volume_lag_1", "close_lag_5", "volume_lag_5",
    "close_lag_10", "volume_lag_10", "log_return", "volatility_20"]

/-- Column names after the order-block detector. -/
def obColumns : List String := rawColumns ++ ["ob_high", "ob_low"]

/-- Column names after the fair-value-gap detector. -/
def fvgColumns : List String := obColumns ++ ["fvg_bull", "fvg_bear"]

/-- Column names after the liquidity-sweep detector. -/
def sweepColumns : List String := fvgColumns ++ ["liq_sweep_bull", "liq_sweep_bear"]

/-- Whether a name occurs in a list of column names. -/
def hasColNames : List String → String → Bool
  | [], _ => false
  | m :: rest, name => m == name || hasColNames rest name

/-- The frame property of one pass over the table: each stage leaves the
six caller-owned columns untouched, and the order-block stage drops its
two temporary pivot columns before returning. -/
def framePreserved (log : ℚ → Option ℚ) (sqrt : ℚ → ℚ) (df : DF)
    (n L : Nat) (vthr g rthr : ℚ) (name : String) : Prop :=
  getCol (add_raw_features log sqrt df n) name = getCol df name ∧
  getCol (detect_order_blocks df n L vthr) name = getCol df name ∧
  getCol (detect_fair_value_gaps df n g) name = getCol df name ∧
  getCol (detect_liquidity_sweeps df n L rthr) name = getCol df name ∧
  getCol (detect_break_of_structure df n L) name = getCol df name ∧
  hasCol (detect_order_blocks df n L vthr) "pivot_high" = false ∧
  hasCol (detect_order_blocks df n L vthr) "pivot_low" = false

/-! ### Basic lemmas about the DataFrame model -/

theorem getCol_setCol_self (df : DF) (name : String) (c : Col) :
    getCol (setCol df name c) name = c := by
  induction df with
  | nil => simp [setCol, getCol]
  | cons p rest ih =>
      by_cases hp : p.1 = name
      · simp [setCol, hp, getCol]
      · simp [setCol, hp, getCol, ih]

theorem getCol_setCol_ne (df : DF) (name name' : String) (c : Col)
    (h : name' ≠ name) : getCol (setCol df name c) name' = getCol df name' := by
  have h2 : name ≠ name' := Ne.symm h
  induction df with
  | nil => simp [setCol, getCol, h2]
  | cons p rest ih =>
      by_cases hp : p.1 = name
      · have hp' : ¬ p.1 = name' := fun e => h ((e ▸ hp : name' = name))
        simp [setCol, hp, getCol, hp', h2]
      · by_cases hp' : p.1 = name'
        · simp [setCol, hp, getCol, hp', h]
        · simp [setCol, hp, getCol, hp', ih]

theorem getCol_dropCol_ne (df : DF) (name name' : String)
    (h : name' ≠ name) : getCol (dropCol df name) name' = getCol df name' := by
  have h2 : name ≠ name' := Ne.symm h
  induction df with
  | nil => simp [dropCol]
  | cons p rest ih =>
      by_cases hp : p.1 = name
      · have hp' : ¬ p.1 = name' := fun e => h ((e ▸ hp : name' = name))
        simp [dropCol, hp, getCol, hp', h2, ih]
      · by_cases hp' : p.1 = name'
        · simp [dropCol, hp, getCol, hp', h]
        · simp [dropCol, hp, getCol, hp', ih]

theorem hasCol_dropCol_self (df : DF) (name : String) :
    hasCol (dropCol df name) name = false := by
  induction df with
  | nil => simp [dropCol, hasCol]
  | cons p rest ih =>
      by_cases hp : p.1 = name
      · simp [dropCol, hp, ih]
      · simp [dropCol, hp, hasCol, ih]

theorem hasCol_dropCol_ne (df : DF) (name name' : String)
    (h : name' ≠ name) : hasCol (dropCol df name) name' = hasCol df name' := by
  have h2 : name ≠ name' := Ne.symm h
  induction df with
  | nil => simp [dropCol]
  | cons p rest ih =>
      by_cases hp : p.1 = name
      · have hp' : ¬ p.1 = name' := fun e => h ((e ▸ hp : name' = name))
        simp [dropCol, hp, hasCol, hp', h2, ih]
      · simp [dropCol, hp, hasCol, ih]

theorem setCol_mem_self (df : DF) (name : String) (c : Col) :
    (name, c) ∈ setCol df name c := by
  induction df with
  | nil => simp [setCol]
  | cons p rest ih =>
      by_cases hp : p.1 = name
      · simp [setCol, hp]
      · simp only [setCol, hp, if_false]
        exact List.mem_cons_of_mem _ ih

theorem setCol_mem_ne (df : DF) (name : String) (c : Col) (p : String × Col)
    (hp : p ∈ df) (hne : p.1 ≠ name) : p ∈ setCol df name c := by
  induction df with
  | nil => cases hp
  | cons q rest ih =>
      rcases List.mem_cons.mp hp with rfl | hmem
      · simp only [setCol, hne, if_false]
        exact List.mem_cons_self _ _
      · by_cases hq : q.1 = name
        · simp only [setCol, hq, if_true]
          exact List.mem_cons_of_mem _ hmem
        · simp only [setCol, hq, if_false]
          exact List.mem_cons_of_mem _ (ih hmem)

theorem dropCol_mem_ne (df : DF) (name : String) (p : String × Col)
    (hp : p ∈ df) (hne : p.1 ≠ name) : p ∈ dropCol df name := by
  induction df with
  | nil => cases hp
  | cons q rest ih =>
      rcases List.mem_cons.mp hp with rfl | hmem
      · simp only [dropCol, hne, if_false]
        exact List.mem_cons_self _ _
      · by_cases hq : q.1 = name
        · simp only [dropCol, hq, if_true]
          exact ih hmem
        · simp only [dropCol, hq, if_false]
          exact List.mem_cons_of_mem _ (ih hmem)

/-! ### Basic lemmas about values and windows -/

theorem vlt_none_left (x : Val) : vlt none x = false := by cases x <;> rfl

theorem vlt_none_right (x : Val) : vlt x none = false := by cases x <;> rfl

theorem vlt_some_some (a b : ℚ) : vlt (some a) (some b) = decide (a < b) := rfl

theorem veq_none_left (x : Val) : veq none x = false := by cases x <;> rfl

theorem veq_some_iff (x : Val) (y : ℚ) : veq x (some y) = true ↔ x = some y := by
  cases x <;> simp [veq]

theorem vmul_none_left (x : Val) : vmul none x = none := by cases x <;> rfl

theorem boolVal_eq_one (b : Bool) : boolVal b = some 1 ↔ b = true := by
  cases b <;> simp [boolVal]

theorem boolVal_eq_zero (b : Bool) : boolVal b = some 0 ↔ b = false := by
  cases b <;> simp [boolVal]

theorem boolVal_isSome (b : Bool) : (boolVal b).isSome = true := rfl

theorem mem_windowIdx_le {i w j : Nat} (hw : w ≤ i + 1) (hj : j ∈ windowIdx i w) :
    j ≤ i := by
  rcases List.mem_map.mp hj with ⟨k, hk, rfl⟩
  have : k < w := List.mem_range.mp hk
  omega

theorem windowIdx_ne_nil {i w : Nat} (hw : 0 < w) : windowIdx i w ≠ [] := by
  simp [windowIdx, List.range_eq_nil]
  omega

theorem optList_map_inRange (f : Nat → ℚ) (n : Nat) (l : List Nat)
    (hl : ∀ j ∈ l, j < n) : optList (l.map (inRange f n)) = some (l.map f) := by
  induction l with
  | nil => rfl
  | cons a as ih =>
      have ha : a < n := hl a (List.mem_cons_self _ _)
      have ih' := ih (fun j hj => hl j (List.mem_cons_of_mem _ hj))
      simp [optList, inRange, ha, ih']

theorem optList_map_none (c : Col) (l : List Nat) (x : Nat)
    (hx : x ∈ l) (hc : c x = none) : optList (l.map c) = none := by
  induction l with
  | nil => cases hx
  | cons a as ih =>
      rcases List.mem_cons.mp hx with rfl | hmem
      · simp [optList, hc]
      · cases ha : c a with
        | none => simp [optList, ha]
        | some q => simp [optList, ha, ih hmem]

theorem max?_of_ne_nil {l : List ℚ} (h : l ≠ []) : l.max? = some (listMax l) := by
  cases l with
  | nil => exact absurd rfl h
  | cons a as => rfl

theorem min?_of_ne_nil {l : List ℚ} (h : l ≠ []) : l.min? = some (listMin l) := by
  cases l with
  | nil => exact absurd rfl h
  | cons a as => rfl

theorem inRange_eval (f : Nat → ℚ) {n i : Nat} (h : i < n) :
    inRange f n i = some (f i) := by simp [inRange, h]

theorem shiftCol_one_eval (c : Col) {i : Nat} (h : 1 ≤ i) :
    shiftCol c 1 i = c (i - 1) := by simp [shiftCol, h]

theorem shiftCol_zero_none (c : Col) (k : Nat) (hk : 0 < k) :
    shiftCol c k 0 = none := by
  simp [shiftCol]
  omega

/-! ### Column-name algebra -/

theorem hasCol_setCol (df : DF) (name name' : String) (c : Col) :
    hasCol (setCol df name c) name' = (hasCol df name' || (name' == name)) := by
  induction df with
  | nil => simp [setCol, hasCol, eq_comm]
  | cons p rest ih =>
      by_cases hp : p.1 = name
      · by_cases hp' : name' = name
        · simp [setCol, hp, hasCol, hp', eq_comm]
        · simp [setCol, hp, hasCol, hp', ih]
      · simp [setCol, hp, hasCol, ih, Bool.or_assoc]

theorem hasCol_dropCol (df : DF) (name name' : String) :
    hasCol (dropCol df name) name' = (hasCol df name' && (name' != name)) := by
  by_cases h : name' = name
  · simp [h, hasCol_dropCol_self]
  · simp [hasCol_dropCol_ne df name name' h, h]

theorem hasCol_eq_names (df : DF) (name : String) :
    hasCol df name = hasColNames (df.map Prod.fst) name := by
  induction df with
  | nil => rfl
  | cons p rest ih => simp [hasCol, hasColNames, ih]

theorem map_fst_setCol_fresh (df : DF) (name : String) (c : Col)
    (h : hasCol df name = false) :
    (setCol df name c).map Prod.fst = df.map Prod.fst ++ [name] := by
  induction df with
  | nil => simp [setCol]
  | cons p rest ih =>
      simp only [hasCol, Bool.or_eq_false_iff] at h
      have hp : ¬ p.1 = name := by simpa using h.1
      simp [setCol, hp, ih h.2]

theorem map_fst_dropCol (df : DF) (name : String) :
    (dropCol df name).map Prod.fst = (df.map Prod.fst).filter (fun m => m != name) := by
  induction df with
  | nil => rfl
  | cons p rest ih =>
      by_cases hp : p.1 = name
      · simp [dropCol, hp, List.filter, ih]
      · have hb : (p.1 != name) = true := by simpa using hp
        simp [dropCol, hp, List.filter, ih, hb]

/-! ### Per-stage column lemmas over a symbolic input table -/

theorem ob_high_col (df : DF) (n L : Nat) (vthr : ℚ) :
    getCol (detect_order_blocks df n L vthr) "ob_high" = fun i =>
      boolVal (veq (centeredMax (getCol df "high") n L i) (getCol df "high" i) &&
        vlt (vmul (rollingMean (getCol df "volume") n L i) (some vthr)) (getCol df "volume" i)) := by
  simp only [detect_order_blocks]
  rw [getCol_dropCol_ne _ _ _ (by decide), getCol_dropCol_ne _ _ _ (by decide),
    getCol_setCol_ne _ _ _ _ (by decide), getCol_setCol_self]

theorem ob_low_col (df : DF) (n L : Nat) (vthr : ℚ) :
    getCol (detect_order_blocks df n L vthr) "ob_low" = fun i =>
      boolVal (veq (centeredMin (getCol df "low") n L i) (getCol df "low" i) &&
        vlt (vmul (rollingMean (getCol df "volume") n L i) (some vthr)) (getCol df "volume" i)) := by
  simp only [detect_order_blocks]
  rw [getCol_dropCol_ne _ _ _ (by decide), getCol_dropCol_ne _ _ _ (by decide),
    getCol_setCol_self]

theorem fvg_bull_col (df : DF) (n : Nat) (g : ℚ) :
    getCol (detect_fair_value_gaps df n g) "fvg_bull" = fun i =>
      if vlt (some g) (if vlt (shiftCol (getCol df "high") 1 i) (getCol df "low" i)
          then vdiv (vsub (getCol df "low" i) (shiftCol (getCol df "high") 1 i))
            (shiftCol (getCol df "high") 1 i) else some 0)
      then (if vlt (shiftCol (getCol df "high") 1 i) (getCol df "low" i)
          then vdiv (vsub (getCol df "low" i) (shiftCol (getCol df "high") 1 i))
            (shiftCol (getCol df "high") 1 i) else some 0)
      else some 0 := by
  simp only [detect_fair_value_gaps]
  rw [getCol_setCol_ne _ _ _ _ (by decide), getCol_setCol_self]

theorem fvg_bear_col (df : DF) (n : Nat) (g : ℚ) :
    getCol (detect_fair_value_gaps df n g) "fvg_bear" = fun i =>
      if vlt (some g) (if vlt (getCol df "high" i) (shiftCol (getCol df "low") 1 i)
          then vdiv (vsub (shiftCol (getCol df "low") 1 i) (getCol df "high" i))
            (shiftCol (getCol df "low") 1 i) else some 0)
      then (if vlt (getCol df "high" i) (shiftCol (getCol df "low") 1 i)
          then vdiv (vsub (shiftCol (getCol df "low") 1 i) (getCol df "high" i))
            (shiftCol (getCol df "low") 1 i) else some 0)
      else some 0 := by
  simp only [detect_fair_value_gaps]
  rw [getCol_setCol_self]

theorem liq_sweep_bull_col (df : DF) (n L : Nat) (rthr : ℚ) :
    getCol (detect_liquidity_sweeps df n L rthr) "liq_sweep_bull" = fun i =>
      boolVal (vlt (getCol df "low" i) (shiftCol (rollingMin (getCol df "low") n L) 1 i) &&
        vlt (some rthr) (vdiv (vsub (getCol df "close" i) (getCol df "open" i))
          (getCol df "open" i))) := by
  simp only [detect_liquidity_sweeps]
  rw [getCol_setCol_ne _ _ _ _ (by decide), getCol_setCol_self]

theorem liq_sweep_bear_col (df : DF) (n L : Nat) (rthr : ℚ) :
    getCol (detect_liquidity_sweeps df n L rthr) "liq_sweep_bear" = fun i =>
      boolVal (vlt (shiftCol (rollingMax (getCol df "high") n L) 1 i) (getCol df "high" i) &&
        vlt (some rthr) (vdiv (vsub (getCol df "open" i) (getCol df "close" i))
          (getCol df "open" i))) := by
  simp only [detect_liquidity_sweeps]
  rw [getCol_setCol_self]

theorem bos_bull_col (df : DF) (n L : Nat) :
    getCol (detect_break_of_structure df n L) "bos_bull" = fun i =>
      boolVal (vlt (shiftCol (rollingMax (getCol df "high") n L) 1 i) (getCol df "high" i)) := by
  simp only [detect_break_of_structure]
  rw [getCol_setCol_ne _ _ _ _ (by decide), getCol_setCol_self]

theorem bos_bear_col (df : DF) (n L : Nat) :
    getCol (detect_break_of_structure df n L) "bos_bear" = fun i =>
      boolVal (vlt (getCol df "low" i) (shiftCol (rollingMin (getCol df "low") n L) 1 i)) := by
  simp only [detect_break_of_structure]
  rw [getCol_setCol_self]

/-! ### Frame lemmas: stages do not disturb other columns -/

theorem add_raw_features_frame (log : ℚ → Option ℚ) (sqrt : ℚ → ℚ) (df : DF) (n : Nat)
    (name : String) (h1 : name ≠ "close_lag_1") (h2 : name ≠ "volume_lag_1")
    (h3 : name ≠ "close_lag_5") (h4 : name ≠ "volume_lag_5")
    (h5 : name ≠ "close_lag_10") (h6 : name ≠ "volume_lag_10")
    (h7 : name ≠ "log_return") (h8 : name ≠ "volatility_20") :
    getCol (add_raw_features log sqrt df n) name = getCol df name := by
  simp only [add_raw_features]
  rw [getCol_setCol_ne _ _ _ _ h8, getCol_setCol_ne _ _ _ _ h7,
    getCol_setCol_ne _ _ _ _ h6, getCol_setCol_ne _ _ _ _ h5,
    getCol_setCol_ne _ _ _ _ h4, getCol_setCol_ne _ _ _ _ h3,
    getCol_setCol_ne _ _ _ _ h2, getCol_setCol_ne _ _ _ _ h1]

theorem detect_order_blocks_frame (df : DF) (n L : Nat) (vthr : ℚ) (name : String)
    (h1 : name ≠ "pivot_high") (h2 : name ≠ "pivot_low")
    (h3 : name ≠ "ob_high") (h4 : name ≠ "ob_low") :
    getCol (detect_order_blocks df n L vthr) name = getCol df name := by
  simp only [detect_order_blocks]
  rw [getCol_dropCol_ne _ _ _ h2, getCol_dropCol_ne _ _ _ h1,
    getCol_setCol_ne _ _ _ _ h4, getCol_setCol_ne _ _ _ _ h3,
    getCol_setCol_ne _ _ _ _ h2, getCol_setCol_ne _ _ _ _ h1]

theorem detect_fair_value_gaps_frame (df : DF) (n : Nat) (g : ℚ) (name : String)
    (h1 : name ≠ "fvg_bull") (h2 : name ≠ "fvg_bear") :
    getCol (detect_fair_value_gaps df n g) name = getCol df name := by
  simp only [detect_fair_value_gaps]
  rw [getCol_setCol_ne _ _ _ _ h2, getCol_setCol_ne _ _ _ _ h1]

theorem detect_liquidity_sweeps_frame (df : DF) (n L : Nat) (rthr : ℚ) (name : String)
    (h1 : name ≠ "liq_sweep_bull") (h2 : name ≠ "liq_sweep_bear") :
    getCol (detect_liquidity_sweeps df n L rthr) name = getCol df name := by
  simp only [detect_liquidity_sweeps]
  rw [getCol_setCol_ne _ _ _ _ h2, getCol_setCol_ne _ _ _ _ h1]

theorem detect_break_of_structure_frame (df : DF) (n L : Nat) (name : String)
    (h1 : name ≠ "bos_bull") (h2 : name ≠ "bos_bear") :
    getCol (detect_break_of_structure df n L) name = getCol df name := by
  simp only [detect_break_of_structure]
  rw [getCol_setCol_ne _ _ _ _ h2, getCol_setCol_ne _ _ _ _ h1]

/-! ### Membership preservation through the stages -/

theorem mem_detect_order_blocks (df : DF) (n L : Nat) (vthr : ℚ) (p : String × Col)
    (hp : p ∈ df) (h1 : p.1 ≠ "pivot_high") (h2 : p.1 ≠ "pivot_low")
    (h3 : p.1 ≠ "ob_high") (h4 : p.1 ≠ "ob_low") :
    p ∈ detect_order_blocks df n L vthr := by
  simp only [detect_order_blocks]
  exact dropCol_mem_ne _ _ _ (dropCol_mem_ne _ _ _ (setCol_mem_ne _ _ _ _
    (setCol_mem_ne _ _ _ _ (setCol_mem_ne _ _ _ _ (setCol_mem_ne _ _ _ _ hp h1) h2) h3) h4)
    h1) h2

theorem mem_detect_fair_value_gaps (df : DF) (n : Nat) (g : ℚ) (p : String × Col)
    (hp : p ∈ df) (h1 : p.1 ≠ "fvg_bull") (h2 : p.1 ≠ "fvg_bear") :
    p ∈ detect_fair_value_gaps df n g := by
  simp only [detect_fair_value_gaps]
  exact setCol_mem_ne _ _ _ _ (setCol_mem_ne _ _ _ _ hp h1) h2

theorem mem_detect_liquidity_sweeps (df : DF) (n L : Nat) (rthr : ℚ) (p : String × Col)
    (hp : p ∈ df) (h1 : p.1 ≠ "liq_sweep_bull") (h2 : p.1 ≠ "liq_sweep_bear") :
    p ∈ detect_liquidity_sweeps df n L rthr := by
  simp only [detect_liquidity_sweeps]
  exact setCol_mem_ne _ _ _ _ (setCol_mem_ne _ _ _ _ hp h1) h2

theorem mem_detect_break_of_structure (df : DF) (n L : Nat) (p : String × Col)
    (hp : p ∈ df) (h1 : p.1 ≠ "bos_bull") (h2 : p.1 ≠ "bos_bear") :
    p ∈ detect_break_of_structure df n L := by
  simp only [detect_break_of_structure]
  exact setCol_mem_ne _ _ _ _ (setCol_mem_ne _ _ _ _ hp h1) h2

theorem vol_col_mem_add_raw (log : ℚ → Option ℚ) (sqrt : ℚ → ℚ) (df : DF) (n : Nat) :
    ("volatility_20", rollingStd sqrt (logReturnCol log (getCol df "close")) n 20) ∈
      add_raw_features log sqrt df n := by
  simp only [add_raw_features]
  exact setCol_mem_self _ _ _

/-! ### Evaluation of the rolling aggregates on an in-range series -/

theorem rollingMax_eval (f : Nat → ℚ) {n w i : Nat} (h0 : 0 < w)
    (hw : w ≤ i + 1) (hi : i < n) :
    rollingMax (inRange f n) n w i = some (listMax ((windowIdx i w).map f)) := by
  have hidx : ∀ j ∈ windowIdx i w, j < n := fun j hj =>
    lt_of_le_of_lt (mem_windowIdx_le hw hj) hi
  simp only [rollingMax, if_pos (And.intro hw hi), optList_map_inRange f n _ hidx]
  exact max?_of_ne_nil (fun hnil => windowIdx_ne_nil h0 (List.map_eq_nil_iff.mp hnil))

theorem rollingMin_eval (f : Nat → ℚ) {n w i : Nat} (h0 : 0 < w)
    (hw : w ≤ i + 1) (hi : i < n) :
    rollingMin (inRange f n) n w i = some (listMin ((windowIdx i w).map f)) := by
  have hidx : ∀ j ∈ windowIdx i w, j < n := fun j hj =>
    lt_of_le_of_lt (mem_windowIdx_le hw hj) hi
  simp only [rollingMin, if_pos (And.intro hw hi), optList_map_inRange f n _ hidx]
  exact min?_of_ne_nil (fun hnil => windowIdx_ne_nil h0 (List.map_eq_nil_iff.mp hnil))

theorem rollingMean_eval (f : Nat → ℚ) {n w i : Nat}
    (hw : w ≤ i + 1) (hi : i < n) :
    rollingMean (inRange f n) n w i = some (((windowIdx i w).map f).sum / (w : ℚ)) := by
  have hidx : ∀ j ∈ windowIdx i w, j < n := by
    intro j hj
    exact lt_of_le_of_lt (mem_windowIdx_le hw hj) hi
  simp only [rollingMean, if_pos (And.intro hw hi), optList_map_inRange f n _ hidx]

theorem rollingMax_undef (c : Col) {n w i : Nat} (h : ¬ (w ≤ i + 1 ∧ i < n)) :
    rollingMax c n w i = none := by simp only [rollingMax, if_neg h]

theorem rollingMin_undef (c : Col) {n w i : Nat} (h : ¬ (w ≤ i + 1 ∧ i < n)) :
    rollingMin c n w i = none := by simp only [rollingMin, if_neg h]

theorem rollingMean_undef (c : Col) {n w i : Nat} (h : ¬ (w ≤ i + 1 ∧ i < n)) :
    rollingMean c n w i = none := by simp only [rollingMean, if_neg h]

theorem centeredMax_eval (f : Nat → ℚ) {n w i : Nat}
    (hw : w ≤ i + 1 + (w - 1) / 2) (hn : i + 1 + (w - 1) / 2 ≤ n) :
    centeredMax (inRange f n) n w i = ((windowIdx (i + (w - 1) / 2) w).map f).max? := by
  have hidx : ∀ j ∈ windowIdx (i + (w - 1) / 2) w, j < n := by
    intro j hj
    have h1 : j ≤ i + (w - 1) / 2 := mem_windowIdx_le (by omega) hj
    omega
  simp only [centeredMax, if_pos (And.intro hw hn), optList_map_inRange f n _ hidx]

theorem centeredMin_eval (f : Nat → ℚ) {n w i : Nat}
    (hw : w ≤ i + 1 + (w - 1) / 2) (hn : i + 1 + (w - 1) / 2 ≤ n) :
    centeredMin (inRange f n) n w i = ((windowIdx (i + (w - 1) / 2) w).map f).min? := by
  have hidx : ∀ j ∈ windowIdx (i + (w - 1) / 2) w, j < n := by
    intro j hj
    have h1 : j ≤ i + (w - 1) / 2 := mem_windowIdx_le (by omega) hj
    omega
  simp only [centeredMin, if_pos (And.intro hw hn), optList_map_inRange f n _ hidx]

theorem centeredMax_undef (c : Col) {n w i : Nat}
    (h : ¬ (w ≤ i + 1 + (w - 1) / 2 ∧ i + 1 + (w - 1) / 2 ≤ n)) :
    centeredMax c n w i = none := by simp only [centeredMax, if_neg h]

theorem centeredMin_undef (c : Col) {n w i : Nat}
    (h : ¬ (w ≤ i + 1 + (w - 1) / 2 ∧ i + 1 + (w - 1) / 2 ≤ n)) :
    centeredMin c n w i = none := by simp only [centeredMin, if_neg h]

/-! ### Base columns seen through the stacked pipeline stages -/

theorem getCol_mkDF_timestamp (ts o h l c v : Nat → ℚ) (n : Nat) :
    getCol (mkDF ts o h l c v n) "timestamp" = inRange ts n := rfl

theorem getCol_mkDF_open (ts o h l c v : Nat → ℚ) (n : Nat) :
    getCol (mkDF ts o h l c v n) "open" = inRange o n := rfl

theorem getCol_mkDF_high (ts o h l c v : Nat → ℚ) (n : Nat) :
    getCol (mkDF ts o h l c v n) "high" = inRange h n := rfl

theorem getCol_mkDF_low (ts o h l c v : Nat → ℚ) (n : Nat) :
    getCol (mkDF ts o h l c v n) "low" = inRange l n := rfl

theorem getCol_mkDF_close (ts o h l c v : Nat → ℚ) (n : Nat) :
    getCol (mkDF ts o h l c v n) "close" = inRange c n := rfl

theorem getCol_mkDF_volume (ts o h l c v : Nat → ℚ) (n : Nat) :
    getCol (mkDF ts o h l c v n) "volume" = inRange v n := rfl

theorem pipe1_base (log : ℚ → Option ℚ) (sqrt : ℚ → ℚ) (df : DF) (n : Nat)
    (name : String) (hname : name ∈ baseNames) :
    getCol (add_raw_features log sqrt df n) name = getCol df name := by
  fin_cases hname <;>
    exact add_raw_features_frame _ _ _ _ _ (by decide) (by decide) (by decide)
      (by decide) (by decide) (by decide) (by decide) (by decide)

theorem pipe2_base (log : ℚ → Option ℚ) (sqrt : ℚ → ℚ) (df : DF) (n : Nat)
    (name : String) (hname : name ∈ baseNames) :
    getCol (detect_fair_value_gaps (detect_order_blocks
      (add_raw_features log sqrt df n) n 20 (3 / 2)) n (1 / 1000)) name = getCol df name := by
  fin_cases hname <;>
    (rw [detect_fair_value_gaps_frame _ _ _ _ (by decide) (by decide),
      detect_order_blocks_frame _ _ _ _ _ (by decide) (by decide) (by decide) (by decide)];
      exact add_raw_features_frame _ _ _ _ _ (by decide) (by decide) (by decide)
        (by decide) (by decide) (by decide) (by decide) (by decide))

theorem pipe3_base (log : ℚ → Option ℚ) (sqrt : ℚ → ℚ) (df : DF) (n : Nat)
    (name : String) (hname : name ∈ baseNames) :
    getCol (detect_liquidity_sweeps (detect_fair_value_gaps (detect_order_blocks
      (add_raw_features log sqrt df n) n 20 (3 / 2)) n (1 / 1000)) n 20 (1 / 500)) name =
      getCol df name := by
  fin_cases hname <;>
    (rw [detect_liquidity_sweeps_frame _ _ _ _ _ (by decide) (by decide),
      detect_fair_value_gaps_frame _ _ _ _ (by decide) (by decide),
      detect_order_blocks_frame _ _ _ _ _ (by decide) (by decide) (by decide) (by decide)];
      exact add_raw_features_frame _ _ _ _ _ (by decide) (by decide) (by decide)
        (by decide) (by decide) (by decide) (by decide) (by decide))

/-! ### The six boolean SMC columns of the full pipeline -/

theorem pipe_bos_bull (log : ℚ → Option ℚ) (sqrt : ℚ → ℚ) (ts o h l c v : Nat → ℚ) (n : Nat) :
    getCol (buildFeatureTable log sqrt (mkDF ts o h l c v n) n) "bos_bull" = fun i =>
      boolVal (vlt (shiftCol (rollingMax (inRange h n) n 20) 1 i) (inRange h n i)) := by
  simp only [buildFeatureTable, add_smc_features]
  rw [bos_bull_col, pipe3_base log sqrt (mkDF ts o h l c v n) n "high" (by decide),
    getCol_mkDF_high]

theorem pipe_bos_bear (log : ℚ → Option ℚ) (sqrt : ℚ → ℚ) (ts o h l c v : Nat → ℚ) (n : Nat) :
    getCol (buildFeatureTable log sqrt (mkDF ts o h l c v n) n) "bos_bear" = fun i =>
      boolVal (vlt (inRange l n i) (shiftCol (rollingMin (inRange l n) n 20) 1 i)) := by
  simp only [buildFeatureTable, add_smc_features]
  rw [bos_bear_col, pipe3_base log sqrt (mkDF ts o h l c v n) n "low" (by decide),
    getCol_mkDF_low]

theorem pipe_sweep_bull (log : ℚ → Option ℚ) (sqrt : ℚ → ℚ) (ts o h l c v : Nat → ℚ) (n : Nat) :
    getCol (buildFeatureTable log sqrt (mkDF ts o h l c v n) n) "liq_sweep_bull" = fun i =>
      boolVal (vlt (inRange l n i) (shiftCol (rollingMin (inRange l n) n 20) 1 i) &&
        vlt (some (1 / 500)) (vdiv (vsub (inRange c n i) (inRange o n i)) (inRange o n i))) := by
  simp only [buildFeatureTable, add_smc_features]
  rw [detect_break_of_structure_frame _ _ _ _ (by decide) (by decide), liq_sweep_bull_col,
    pipe2_base log sqrt (mkDF ts o h l c v n) n "low" (by decide),
    pipe2_base log sqrt (mkDF ts o h l c v n) n "close" (by decide),
    pipe2_base log sqrt (mkDF ts o h l c v n) n "open" (by decide),
    getCol_mkDF_low, getCol_mkDF_close, getCol_mkDF_open]

theorem pipe_sweep_bear (log : ℚ → Option ℚ) (sqrt : ℚ → ℚ) (ts o h l c v : Nat → ℚ) (n : Nat) :
    getCol (buildFeatureTable log sqrt (mkDF ts o h l c v n) n) "liq_sweep_bear" = fun i =>
      boolVal (vlt (shiftCol (rollingMax (inRange h n) n 20) 1 i) (inRange h n i) &&
        vlt (some (1 / 500)) (vdiv (vsub (inRange o n i) (inRange c n i)) (inRange o n i))) := by
  simp only [buildFeatureTable, add_smc_features]
  rw [detect_break_of_structure_frame _ _ _ _ (by decide) (by decide), liq_sweep_bear_col,
    pipe2_base log sqrt (mkDF ts o h l c v n) n "high" (by decide),
    pipe2_base log sqrt (mkDF ts o h l c v n) n "open" (by decide),
    pipe2_base log sqrt (mkDF ts o h l c v n) n "close" (by decide),
    getCol_mkDF_high, getCol_mkDF_open, getCol_mkDF_close]

theorem pipe_ob_high (log : ℚ → Option ℚ) (sqrt : ℚ → ℚ) (ts o h l c v : Nat → ℚ) (n : Nat) :
    getCol (buildFeatureTable log sqrt (mkDF ts o h l c v n) n) "ob_high" = fun i =>
      boolVal (veq (centeredMax (inRange h n) n 20 i) (inRange h n i) &&
        vlt (vmul (rollingMean (inRange v n) n 20 i) (some (3 / 2))) (inRange v n i)) := by
  simp only [buildFeatureTable, add_smc_features]
  rw [detect_break_of_structure_frame _ _ _ _ (by decide) (by decide),
    detect_liquidity_sweeps_frame _ _ _ _ _ (by decide) (by decide),
    detect_fair_value_gaps_frame _ _ _ _ (by decide) (by decide), ob_high_col,
    pipe1_base log sqrt (mkDF ts o h l c v n) n "high" (by decide),
    pipe1_base log sqrt (mkDF ts o h l c v n) n "volume" (by decide),
    getCol_mkDF_high, getCol_mkDF_volume]

theorem pipe_ob_low (log : ℚ → Option ℚ) (sqrt : ℚ → ℚ) (ts o h l c v : Nat → ℚ) (n : Nat) :
    getCol (buildFeatureTable log sqrt (mkDF ts o h l c v n) n) "ob_low" = fun i =>
      boolVal (veq (centeredMin (inRange l n) n 20 i) (inRange l n i) &&
        vlt (vmul (rollingMean (inRange v n) n 20 i) (some (3 / 2))) (inRange v n i)) := by
  simp only [buildFeatureTable, add_smc_features]
  rw [detect_break_of_structure_frame _ _ _ _ (by decide) (by decide),
    detect_liquidity_sweeps_frame _ _ _ _ _ (by decide) (by decide),
    detect_fair_value_gaps_frame _ _ _ _ (by decide) (by decide), ob_low_col,
    pipe1_base log sqrt (mkDF ts o h l c v n) n "low" (by decide),
    pipe1_base log sqrt (mkDF ts o h l c v n) n "volume" (by decide),
    getCol_mkDF_low, getCol_mkDF_volume]

/-! ### The four columns of `sweepsAndBos` -/

theorem sb_bos_bull (ts o h l c v : Nat → ℚ) (n L : Nat) (rthr : ℚ) :
    getCol (sweepsAndBos ts o h l c v n L rthr) "bos_bull" = fun i =>
      boolVal (vlt (shiftCol (rollingMax (inRange h n) n L) 1 i) (inRange h n i)) := by
  simp only [sweepsAndBos]
  rw [bos_bull_col, detect_liquidity_sweeps_frame _ _ _ _ _ (by decide) (by decide),
    getCol_mkDF_high]

theorem sb_bos_bear (ts o h l c v : Nat → ℚ) (n L : Nat) (rthr : ℚ) :
    getCol (sweepsAndBos ts o h l c v n L rthr) "bos_bear" = fun i =>
      boolVal (vlt (inRange l n i) (shiftCol (rollingMin (inRange l n) n L) 1 i)) := by
  simp only [sweepsAndBos]
  rw [bos_bear_col, detect_liquidity_sweeps_frame _ _ _ _ _ (by decide) (by decide),
    getCol_mkDF_low]

theorem sb_sweep_bull (ts o h l c v : Nat → ℚ) (n L : Nat) (rthr : ℚ) :
    getCol (sweepsAndBos ts o h l c v n L rthr) "liq_sweep_bull" = fun i =>
      boolVal (vlt (inRange l n i) (shiftCol (rollingMin (inRange l n) n L) 1 i) &&
        vlt (some rthr) (vdiv (vsub (inRange c n i) (inRange o n i)) (inRange o n i))) := by
  simp only [sweepsAndBos]
  rw [detect_break_of_structure_frame _ _ _ _ (by decide) (by decide), liq_sweep_bull_col,
    getCol_mkDF_low, getCol_mkDF_close, getCol_mkDF_open]

theorem sb_sweep_bear (ts o h l c v : Nat → ℚ) (n L : Nat) (rthr : ℚ) :
    getCol (sweepsAndBos ts o h l c v n L rthr) "liq_sweep_bear" = fun i =>
      boolVal (vlt (shiftCol (rollingMax (inRange h n) n L) 1 i) (inRange h n i) &&
        vlt (some rthr) (vdiv (vsub (inRange o n i) (inRange c n i)) (inRange o n i))) := by
  simp only [sweepsAndBos]
  rw [detect_break_of_structure_frame _ _ _ _ (by decide) (by decide), liq_sweep_bear_col,
    getCol_mkDF_high, getCol_mkDF_open, getCol_mkDF_close]

/-! ### Value-level helpers for the detector conditions -/

theorem pivot_high_iff (h : Nat → ℚ) (n w t : Nat) :
    veq (centeredMax (inRange h n) n w t) (inRange h n t) = true ↔
      (w ≤ t + 1 + (w - 1) / 2 ∧ t + 1 + (w - 1) / 2 ≤ n ∧
        ((windowIdx (t + (w - 1) / 2) w).map h).max? = some (h t)) := by
  by_cases hg : w ≤ t + 1 + (w - 1) / 2 ∧ t + 1 + (w - 1) / 2 ≤ n
  · rw [centeredMax_eval h hg.1 hg.2, inRange_eval h (by omega), veq_some_iff]
    constructor
    · intro hx
      exact ⟨hg.1, hg.2, hx⟩
    · intro hx
      exact hx.2.2
  · rw [centeredMax_undef _ hg, veq_none_left]
    simp only [Bool.false_eq_true, false_iff]
    intro hx
    exact hg ⟨hx.1, hx.2.1⟩

theorem pivot_low_iff (l : Nat → ℚ) (n w t : Nat) :
    veq (centeredMin (inRange l n) n w t) (inRange l n t) = true ↔
      (w ≤ t + 1 + (w - 1) / 2 ∧ t + 1 + (w - 1) / 2 ≤ n ∧
        ((windowIdx (t + (w - 1) / 2) w).map l).min? = some (l t)) := by
  by_cases hg : w ≤ t + 1 + (w - 1) / 2 ∧ t + 1 + (w - 1) / 2 ≤ n
  · rw [centeredMin_eval l hg.1 hg.2, inRange_eval l (by omega), veq_some_iff]
    constructor
    · intro hx
      exact ⟨hg.1, hg.2, hx⟩
    · intro hx
      exact hx.2.2
  · rw [centeredMin_undef _ hg, veq_none_left]
    simp only [Bool.false_eq_true, false_iff]
    intro hx
    exact hg ⟨hx.1, hx.2.1⟩

theorem vol_cond_iff (v : Nat → ℚ) (n w t : Nat) (vthr : ℚ) :
    vlt (vmul (rollingMean (inRange v n) n w t) (some vthr)) (inRange v n t) = true ↔
      (w ≤ t + 1 ∧ t < n ∧ vthr * (((windowIdx t w).map v).sum / (w : ℚ)) < v t) := by
  by_cases hg : w ≤ t + 1 ∧ t < n
  · rw [rollingMean_eval v hg.1 hg.2, inRange_eval v hg.2]
    simp only [vmul, vlt_some_some, decide_eq_true_eq]
    constructor
    · intro hx
      refine ⟨hg.1, hg.2, ?_⟩
      rw [mul_comm]
      exact hx
    · intro hx
      have := hx.2.2
      rw [mul_comm] at this
      exact this
  · rw [rollingMean_undef _ hg, vmul_none_left, vlt_none_left]
    simp only [Bool.false_eq_true, false_iff]
    intro hx
    exact hg ⟨hx.1, hx.2.1⟩

theorem shifted_rollingMax_eval (f : Nat → ℚ) {n L t : Nat} (h0 : 0 < L)
    (ht : L ≤ t) (hn : t < n) :
    shiftCol (rollingMax (inRange f n) n L) 1 t = some (priorHigh f L t) := by
  rw [shiftCol_one_eval _ (by omega), rollingMax_eval f h0 (by omega) (by omega)]
  rfl

theorem shifted_rollingMin_eval (f : Nat → ℚ) {n L t : Nat} (h0 : 0 < L)
    (ht : L ≤ t) (hn : t < n) :
    shiftCol (rollingMin (inRange f n) n L) 1 t = some (priorLow f L t) := by
  rw [shiftCol_one_eval _ (by omega), rollingMin_eval f h0 (by omega) (by omega)]
  rfl

theorem shifted_rollingMax_undef (c : Col) {n L t : Nat} (ht : t < L) :
    shiftCol (rollingMax c n L) 1 t = none := by
  cases t with
  | zero => exact shiftCol_zero_none _ 1 (by omega)
  | succ t' =>
      rw [shiftCol_one_eval _ (by omega)]
      exact rollingMax_undef c (by omega)

theorem shifted_rollingMin_undef (c : Col) {n L t : Nat} (ht : t < L) :
    shiftCol (rollingMin c n L) 1 t = none := by
  cases t with
  | zero => exact shiftCol_zero_none _ 1 (by omega)
  | succ t' =>
      rw [shiftCol_one_eval _ (by omega)]
      exact rollingMin_undef c (by omega)

theorem reversal_iff (o c : Nat → ℚ) {n t : Nat} (hn : t < n) (rthr : ℚ) :
    vlt (some rthr) (vdiv (vsub (inRange c n t) (inRange o n t)) (inRange o n t)) = true ↔
      rthr < (c t - o t) / o t := by
  rw [inRange_eval c hn, inRange_eval o hn]
  simp only [vsub, vdiv, vlt_some_some, decide_eq_true_eq]

theorem logReturnCol_zero (log : ℚ → Option ℚ) (c : Col) :
    logReturnCol log c 0 = none := by
  cases h : c 0 <;> simp [logReturnCol, shiftCol, h]

theorem rollingStd_none_of_short (sqrt : ℚ → ℚ) (c : Col) {n i : Nat}
    (hc : c 0 = none) (hi : i < n) (hn : n ≤ 20) :
    rollingStd sqrt c n 20 i = none := by
  by_cases hg : 20 ≤ i + 1 ∧ i < n
  · have hmem : (0 : Nat) ∈ windowIdx i 20 := by
      simp only [windowIdx, List.mem_map]
      exact ⟨0, List.mem_range.mpr (by omega), by omega⟩
    simp only [rollingStd, if_pos hg, optList_map_none c _ 0 hmem hc]
  · simp only [rollingStd, if_neg hg]

/-! ### Output column lists of the stacked pipeline -/

theorem mkDF_map_fst (ts o h l c v : Nat → ℚ) (n : Nat) :
    (mkDF ts o h l c v n).map Prod.fst = baseNames := rfl

theorem map_fst_add_raw (log : ℚ → Option ℚ) (sqrt : ℚ → ℚ) (df : DF) (n : Nat)
    (h : df.map Prod.fst = baseNames) :
    (add_raw_features log sqrt df n).map Prod.fst = rawColumns := by
  simp only [add_raw_features]
  rw [map_fst_setCol_fresh, map_fst_setCol_fresh, map_fst_setCol_fresh, map_fst_setCol_fresh,
    map_fst_setCol_fresh, map_fst_setCol_fresh, map_fst_setCol_fresh, map_fst_setCol_fresh, h]
  · decide
  all_goals try simp only [hasCol_setCol]
  all_goals rw [hasCol_eq_names, h]
  all_goals decide

theorem map_fst_ob (df : DF) (n L : Nat) (vthr : ℚ)
    (h : df.map Prod.fst = rawColumns) :
    (detect_order_blocks df n L vthr).map Prod.fst = obColumns := by
  simp only [detect_order_blocks]
  rw [map_fst_dropCol, map_fst_dropCol, map_fst_setCol_fresh, map_fst_setCol_fresh,
    map_fst_setCol_fresh, map_fst_setCol_fresh, h]
  · decide
  all_goals try simp only [hasCol_setCol]
  all_goals rw [hasCol_eq_names, h]
  all_goals decide

theorem map_fst_fvg (df : DF) (n : Nat) (g : ℚ)
    (h : df.map Prod.fst = obColumns) :
    (detect_fair_value_gaps df n g).map Prod.fst = fvgColumns := by
  simp only [detect_fair_value_gaps]
  rw [map_fst_setCol_fresh, map_fst_setCol_fresh, h]
  · decide
  all_goals try simp only [hasCol_setCol]
  all_goals rw [hasCol_eq_names, h]
  all_goals decide

theorem map_fst_sweeps (df : DF) (n L : Nat) (rthr : ℚ)
    (h : df.map Prod.fst = fvgColumns) :
    (detect_liquidity_sweeps df n L rthr).map Prod.fst = sweepColumns := by
  simp only [detect_liquidity_sweeps]
  rw [map_fst_setCol_fresh, map_fst_setCol_fresh, h]
  · decide
  all_goals try simp only [hasCol_setCol]
  all_goals rw [hasCol_eq_names, h]
  all_goals decide

theorem map_fst_bos (df : DF) (n L : Nat)
    (h : df.map Prod.fst = sweepColumns) :
    (detect_break_of_structure df n L).map Prod.fst = featureColumns := by
  simp only [detect_break_of_structure]
  rw [map_fst_setCol_fresh, map_fst_setCol_fresh, h]
  · decide
  all_goals try simp only [hasCol_setCol]
  all_goals rw [hasCol_eq_names, h]
  all_goals decide

theorem map_fst_buildFeatureTable (log : ℚ → Option ℚ) (sqrt : ℚ → ℚ) (df : DF) (n : Nat)
    (h : df.map Prod.fst = baseNames) :
    (buildFeatureTable log sqrt df n).map Prod.fst = featureColumns := by
  simp only [buildFeatureTable, add_smc_features]
  exact map_fst_bos _ _ _ (map_fst_sweeps _ _ _ _ (map_fst_fvg _ _ _
    (map_fst_ob _ _ _ _ (map_fst_add_raw _ _ _ _ h))))

/-! ### The terminal `dropna` on short series -/

theorem survivors_empty_of_short (log : ℚ → Option ℚ) (sqrt : ℚ → ℚ) (df : DF)
    (n : Nat) (hn : n ≤ 20) :
    survivors (buildFeatureTable log sqrt df n) n = [] := by
  simp only [survivors]
  rw [List.filter_eq_nil_iff]
  intro i hi
  have hin : i < n := List.mem_range.mp hi
  have h1 := vol_col_mem_add_raw log sqrt df n
  have h2 := mem_detect_order_blocks _ n 20 (3 / 2) _ h1
    ((by decide : ("volatility_20" : String) ≠ "pivot_high"))
    ((by decide : ("volatility_20" : String) ≠ "pivot_low"))
    ((by decide : ("volatility_20" : String) ≠ "ob_high"))
    ((by decide : ("volatility_20" : String) ≠ "ob_low"))
  have h3 := mem_detect_fair_value_gaps _ n (1 / 1000) _ h2
    ((by decide : ("volatility_20" : String) ≠ "fvg_bull"))
    ((by decide : ("volatility_20" : String) ≠ "fvg_bear"))
  have h4 := mem_detect_liquidity_sweeps _ n 20 (1 / 500) _ h3
    ((by decide : ("volatility_20" : String) ≠ "liq_sweep_bull"))
    ((by decide : ("volatility_20" : String) ≠ "liq_sweep_bear"))
  have h5 := mem_detect_break_of_structure _ n 20 _ h4
    ((by decide : ("volatility_20" : String) ≠ "bos_bull"))
    ((by decide : ("volatility_20" : String) ≠ "bos_bear"))
  have hnone : rollingStd sqrt (logReturnCol log (getCol df "close")) n 20 i = none :=
    rollingStd_none_of_short sqrt _ (logReturnCol_zero log _) hin hn
  have hall : (buildFeatureTable log sqrt df n).all (fun p => (p.2 i).isSome) = false := by
    refine List.all_eq_false.mpr
      ⟨("volatility_20", rollingStd sqrt (logReturnCol log (getCol df "close")) n 20), ?_, ?_⟩
    · simpa only [buildFeatureTable, add_smc_features] using h5
    · simp [hnone]
  simp [hall]

/-! ### The bullish fair-value-gap column of the full pipeline -/

theorem pipe1b_base (log : ℚ → Option ℚ) (sqrt : ℚ → ℚ) (df : DF) (n : Nat)
    (name : String) (hname : name ∈ baseNames) :
    getCol (detect_order_blocks (add_raw_features log sqrt df n) n 20 (3 / 2)) name =
      getCol df name := by
  fin_cases hname <;>
    (rw [detect_order_blocks_frame _ _ _ _ _ (by decide) (by decide) (by decide) (by decide)];
      exact add_raw_features_frame _ _ _ _ _ (by decide) (by decide) (by decide)
        (by decide) (by decide) (by decide) (by decide) (by decide))

theorem pipe_fvg_bull (log : ℚ → Option ℚ) (sqrt : ℚ → ℚ) (ts o h l c v : Nat → ℚ) (n : Nat) :
    getCol (buildFeatureTable log sqrt (mkDF ts o h l c v n) n) "fvg_bull" = fun i =>
      if vlt (some (1 / 1000)) (if vlt (shiftCol (inRange h n) 1 i) (inRange l n i)
          then vdiv (vsub (inRange l n i) (shiftCol (inRange h n) 1 i))
            (shiftCol (inRange h n) 1 i) else some 0)
      then (if vlt (shiftCol (inRange h n) 1 i) (inRange l n i)
          then vdiv (vsub (inRange l n i) (shiftCol (inRange h n) 1 i))
            (shiftCol (inRange h n) 1 i) else some 0)
      else some 0 := by
  simp only [buildFeatureTable, add_smc_features]
  rw [detect_break_of_structure_frame _ _ _ _ (by decide) (by decide),
    detect_liquidity_sweeps_frame _ _ _ _ _ (by decide) (by decide), fvg_bull_col,
    pipe1b_base log sqrt (mkDF ts o h l c v n) n "high" (by decide),
    pipe1b_base log sqrt (mkDF ts o h l c v n) n "low" (by decide),
    getCol_mkDF_high, getCol_mkDF_low]

/-! ### Claim theorems -/

/-- Claim C3 counterexample: on the spec's concrete 3-bar series with
`lookback = 2` and `reversal_threshold = 0.002`, it is not the case that
the detectors set both `bos_bear` and `liq_sweep_bear` at the third bar:
the code's bearish sweep requires `high > prior max high` (109 > 110 is
false), not the break below the prior low that the scenario describes. -/
theorem c3_counterexample :
    ¬ (getCol dfC3out "bos_bear" 2 = some 1 ∧
       getCol dfC3out "liq_sweep_bear" 2 = some 1) := by
  decide

/-- Claim C3 (amended): on the concrete 3-bar series with `lookback = 2`
and `reversal_threshold = 0.002`, the detectors set `bos_bear = true` and
`liq_sweep_bear = false` at the third bar. -/
theorem c3_amended_scenario :
    getCol dfC3out "bos_bear" 2 = some 1 ∧
    getCol dfC3out "liq_sweep_bear" 2 = some 0 := by
  decide

/-- Claim C2 (amended): the bullish liquidity sweep implies the BEARISH
break of structure, because the sweep's break condition
(`low < prior min low`) is exactly the `bos_bear` condition, strengthened
by the same-bar reversal; it does not imply `bos_bull`, whose condition
compares `high` against the prior max high. -/
theorem c2_sweep_implies_break (ts o h l c v : Nat → ℚ) (n L : Nat) (rthr : ℚ) (t : Nat)
    (hs : getCol (sweepsAndBos ts o h l c v n L rthr) "liq_sweep_bull" t = some 1) :
    getCol (sweepsAndBos ts o h l c v n L rthr) "bos_bear" t = some 1 := by
  simp only [sb_sweep_bull, boolVal_eq_one, Bool.and_eq_true] at hs
  simp only [sb_bos_bear, boolVal_eq_one]
  exact hs.1

/-- The bullish sweep fires at bar 1 of the two-bar series
`(100,110,100,105,1), (100,105,90,101,1)` with `lookback = 1`. -/
theorem dfC2_sweep_bull :
    getCol (sweepsAndBos (qList [0, 1]) (qList [100, 100]) (qList [110, 105]) (qList [100, 90])
      (qList [105, 101]) (qList [1, 1]) 2 1 (1 / 500)) "liq_sweep_bull" 1 = some 1 := by
  simp only [sb_sweep_bull, boolVal_eq_one, Bool.and_eq_true]
  constructor
  · rw [shifted_rollingMin_eval (qList [100, 90]) (by decide) (by decide) (by decide),
      inRange_eval _ (by decide), vlt_some_some]
    norm_num [priorLow, windowIdx, listMin, qList, List.range_succ]
  · rw [inRange_eval (qList [105, 101]) (by decide : (1 : Nat) < 2),
      inRange_eval (qList [100, 100]) (by decide : (1 : Nat) < 2)]
    simp only [vsub, vdiv, vlt_some_some]
    norm_num [qList]

/-- Claim C2 counterexample: at that concrete input the bullish sweep
holds but `bos_bull` is false, refuting sweep ⇒ bullish break. -/
theorem c2_counterexample :
    getCol (sweepsAndBos (qList [0, 1]) (qList [100, 100]) (qList [110, 105]) (qList [100, 90])
      (qList [105, 101]) (qList [1, 1]) 2 1 (1 / 500)) "liq_sweep_bull" 1 = some 1 ∧
    getCol (sweepsAndBos (qList [0, 1]) (qList [100, 100]) (qList [110, 105]) (qList [100, 90])
      (qList [105, 101]) (qList [1, 1]) 2 1 (1 / 500)) "bos_bull" 1 = some 0 ∧
    getCol (sweepsAndBos (qList [0, 1]) (qList [100, 100]) (qList [110, 105]) (qList [100, 90])
      (qList [105, 101]) (qList [1, 1]) 2 1 (1 / 500)) "bos_bull" 1 ≠ some 1 :=
  ⟨dfC2_sweep_bull, by decide, by decide⟩

/-- Witness for the amended claim C2 at a concrete sweeping bar. -/
theorem c2_sweep_implies_break_witness :
    getCol (sweepsAndBos (qList [0, 1]) (qList [100, 100]) (qList [110, 105]) (qList [100, 90])
      (qList [105, 101]) (qList [1, 1]) 2 1 (1 / 500)) "liq_sweep_bull" 1 = some 1 ∧
    getCol (sweepsAndBos (qList [0, 1]) (qList [100, 100]) (qList [110, 105]) (qList [100, 90])
      (qList [105, 101]) (qList [1, 1]) 2 1 (1 / 500)) "bos_bear" 1 = some 1 :=
  ⟨dfC2_sweep_bull, c2_sweep_implies_break _ _ _ _ _ _ 2 1 (1 / 500) 1 dfC2_sweep_bull⟩

/-- Claim C1 (amended): for every series of at most 20 bars — fewer bars
than the pipeline's largest required lookback (the 20-bar rolling
standard deviation of log returns retains no complete window) — the
pipeline does not fail: the source has no `InsufficientDataError` (or any
raise path; `main` even wraps everything in a catch-all handler).  It
produces the full 22-column feature table, and the terminal `df.dropna()`
then removes every row, leaving an empty output table. -/
theorem c1_short_series_empty_output (log : ℚ → Option ℚ) (sqrt : ℚ → ℚ)
    (ts o h l c v : Nat → ℚ) (n : Nat) (hn : n ≤ 20) :
    survivors (buildFeatureTable log sqrt (mkDF ts o h l c v n) n) n = [] ∧
    (buildFeatureTable log sqrt (mkDF ts o h l c v n) n).map Prod.fst = featureColumns :=
  ⟨survivors_empty_of_short log sqrt _ n hn,
   map_fst_buildFeatureTable log sqrt _ n (mkDF_map_fst ts o h l c v n)⟩

/-- Witness for the amended claim C1 at the concrete 3-bar series. -/
theorem c1_short_series_empty_output_witness :
    (3 ≤ 20) ∧
    (survivors (buildFeatureTable log0 sqrt0 (mkDF (qList [0, 1, 2]) (qList [100, 102, 108])
        (qList [105, 110, 109]) (qList [98, 101, 95]) (qList [102, 108, 97])
        (qList [1000, 1200, 5000]) 3) 3) 3 = [] ∧
      (buildFeatureTable log0 sqrt0 (mkDF (qList [0, 1, 2]) (qList [100, 102, 108])
        (qList [105, 110, 109]) (qList [98, 101, 95]) (qList [102, 108, 97])
        (qList [1000, 1200, 5000]) 3) 3).map Prod.fst = featureColumns) :=
  ⟨by decide, c1_short_series_empty_output log0 sqrt0 _ _ _ _ _ _ 3 (by decide)⟩

/-- Claim C1 counterexample: on the concrete 3-bar series — far shorter
than the largest lookback — the pipeline raises no error and produces an
output table (all 22 feature columns) whose rows are then all dropped;
it does not fail with `InsufficientDataError`. -/
theorem c1_counterexample :
    survivors (buildFeatureTable log0 sqrt0 mkC3 3) 3 = [] ∧
    (buildFeatureTable log0 sqrt0 mkC3 3).map Prod.fst = featureColumns :=
  ⟨survivors_empty_of_short log0 sqrt0 mkC3 3 (by omega),
   map_fst_buildFeatureTable log0 sqrt0 mkC3 3 rfl⟩

/-- Claim C7 (amended): the code performs no bar validation at all: for
every input series violating the bar invariant — some bar with
`high < low`, or non-monotonic timestamps — feature construction
completes silently and produces the full feature table over the
offending series; no `InvalidBarError` exists in the source. -/
theorem c7_no_validation (log : ℚ → Option ℚ) (sqrt : ℚ → ℚ)
    (ts o h l c v : Nat → ℚ) (n : Nat)
    (_hbad : (∃ t, t < n ∧ h t < l t) ∨ (∃ t, t + 1 < n ∧ ts (t + 1) ≤ ts t)) :
    (buildFeatureTable log sqrt (mkDF ts o h l c v n) n).map Prod.fst = featureColumns :=
  map_fst_buildFeatureTable log sqrt _ n (mkDF_map_fst ts o h l c v n)

/-- Witness for the amended claim C7 at a concrete invalid series. -/
theorem c7_no_validation_witness :
    ((∃ t, t < 2 ∧ qList [90, 100] t < qList [101, 95] t) ∨
      (∃ t, t + 1 < 2 ∧ qList [10, 5] (t + 1) ≤ qList [10, 5] t)) ∧
    (buildFeatureTable log0 sqrt0 (mkDF (qList [10, 5]) (qList [100, 100]) (qList [90, 100])
      (qList [101, 95]) (qList [100, 98]) (qList [1, 1]) 2) 2).map Prod.fst = featureColumns :=
  ⟨Or.inl ⟨0, by decide, by decide⟩,
   c7_no_validation log0 sqrt0 _ _ _ _ _ _ 2 (Or.inl ⟨0, by decide, by decide⟩)⟩

/-- Claim C7 counterexample: the concrete 2-bar series `mkInv` violates
the invariant twice (bar 0 has `high = 90 < 101 = low`; timestamps 10, 5
decrease), yet construction completes, produces all 22 columns, and even
computes a bullish fair value gap `(95 − 90)/90 = 1/18` over the invalid
bars — nothing fails fast and nothing is rejected. -/
theorem c7_counterexample :
    vlt (getCol mkInv "high" 0) (getCol mkInv "low" 0) = true ∧
    vlt (getCol mkInv "timestamp" 1) (getCol mkInv "timestamp" 0) = true ∧
    (buildFeatureTable log0 sqrt0 mkInv 2).map Prod.fst = featureColumns ∧
    getCol (buildFeatureTable log0 sqrt0 mkInv 2) "fvg_bull" 1 = some (1 / 18) := by
  refine ⟨by decide, by decide, map_fst_buildFeatureTable log0 sqrt0 mkInv 2 rfl, ?_⟩
  have hmk : (mkInv : DF) = mkDF (qList [10, 5]) (qList [100, 100]) (qList [90, 100])
      (qList [101, 95]) (qList [100, 98]) (qList [1, 1]) 2 := rfl
  rw [hmk, pipe_fvg_bull]
  have h1 : shiftCol (inRange (qList [90, 100]) 2) 1 1 = some 90 := by
    rw [shiftCol_one_eval _ (by decide), inRange_eval _ (by decide)]
    decide
  have h2 : inRange (qList [101, 95]) 2 1 = some 95 := by
    rw [inRange_eval _ (by decide)]
    decide
  simp only [h1, h2, vsub, vdiv, vlt_some_some]
  norm_num
  simp only [vlt_some_some]
  norm_num

/-- Claim C8: every stage of the pipeline — the raw-feature augmenter
and the four detectors — leaves the caller's `timestamp`, `open`,
`high`, `low`, `close` and `volume` columns unchanged (stages only
append derived columns), and the order-block stage removes its temporary
`pivot_high`/`pivot_low` columns before returning. -/
theorem c8_stages_preserve_base (log : ℚ → Option ℚ) (sqrt : ℚ → ℚ) (df : DF)
    (n L : Nat) (vthr g rthr : ℚ) (name : String) (hname : name ∈ baseNames) :
    framePreserved log sqrt df n L vthr g rthr name := by
  unfold framePreserved
  refine ⟨pipe1_base log sqrt df n name hname, ?_, ?_, ?_, ?_, ?_, ?_⟩
  · fin_cases hname <;>
      exact detect_order_blocks_frame _ _ _ _ _ (by decide) (by decide) (by decide) (by decide)
  · fin_cases hname <;> exact detect_fair_value_gaps_frame _ _ _ _ (by decide) (by decide)
  · fin_cases hname <;> exact detect_liquidity_sweeps_frame _ _ _ _ _ (by decide) (by decide)
  · fin_cases hname <;> exact detect_break_of_structure_frame _ _ _ _ (by decide) (by decide)
  · simp only [detect_order_blocks]
    rw [hasCol_dropCol, hasCol_dropCol_self]
    simp
  · simp only [detect_order_blocks]
    exact hasCol_dropCol_self _ _

/-- Witness for claim C8 at the `open` column of a concrete table. -/
theorem c8_stages_preserve_base_witness :
    ("open" ∈ baseNames) ∧
    framePreserved log0 sqrt0 mkC3 3 2 (3 / 2) (1 / 1000) (1 / 500) "open" :=
  ⟨by decide,
   c8_stages_preserve_base log0 sqrt0 mkC3 3 2 (3 / 2) (1 / 1000) (1 / 500) "open" (by decide)⟩

/-- Claim C4: for every series, lookback `w` and volume threshold `v`,
`ob_high[t]` holds iff `high[t]` equals the maximum of the centered
`w`-bar window around `t` (the window existing in full, with the
reference convention `[t + o + 1 - w, t + o]`, `o = (w-1)/2`) and
`volume[t]` exceeds `v` times the trailing `w`-bar mean volume computed
without shift (bar `t` included); `ob_low[t]` analogously with the
centered-window minimum of the lows. -/
theorem c4_order_block_iff (ts o h l c v : Nat → ℚ) (n w : Nat) (vthr : ℚ) (t : Nat) :
    (getCol (detect_order_blocks (mkDF ts o h l c v n) n w vthr) "ob_high" t = some 1 ↔
      obHighSpec h v n w vthr t) ∧
    (getCol (detect_order_blocks (mkDF ts o h l c v n) n w vthr) "ob_low" t = some 1 ↔
      obLowSpec l v n w vthr t) := by
  constructor
  · simp only [ob_high_col, getCol_mkDF_high, getCol_mkDF_volume]
    rw [boolVal_eq_one, Bool.and_eq_true, pivot_high_iff, vol_cond_iff]
    exact Iff.rfl
  · simp only [ob_low_col, getCol_mkDF_low, getCol_mkDF_volume]
    rw [boolVal_eq_one, Bool.and_eq_true, pivot_low_iff, vol_cond_iff]
    exact Iff.rfl

theorem reversal_down_iff (o c : Nat → ℚ) {n t : Nat} (hn : t < n) (rthr : ℚ) :
    vlt (some rthr) (vdiv (vsub (inRange o n t) (inRange c n t)) (inRange o n t)) = true ↔
      rthr < (o t - c t) / o t := by
  rw [inRange_eval c hn, inRange_eval o hn]
  simp only [vsub, vdiv, vlt_some_some, decide_eq_true_eq]

/-- Claim C5: at every bar `t` with a full window of `lookback` bars
strictly preceding it, the four columns agree with the spec's formulas:
`bos_bull = (high > priorHigh)`, `bos_bear = (low < priorLow)`,
`liq_sweep_bull = (low < priorLow ∧ (close−open)/open > threshold)`,
`liq_sweep_bear = (high > priorHigh ∧ (open−close)/open > threshold)`,
where the prior extremes range over the shifted trailing window. -/
theorem c5_sweep_bos_formulas (ts o h l c v : Nat → ℚ) (n L : Nat) (rthr : ℚ) (t : Nat)
    (h0 : 0 < L) (ht : L ≤ t) (hn : t < n) :
    sweepBosProp ts o h l c v n L rthr t := by
  unfold sweepBosProp
  refine ⟨?_, ?_, ?_, ?_⟩
  · simp only [sb_bos_bull]
    rw [boolVal_eq_one, shifted_rollingMax_eval h h0 ht hn, inRange_eval h hn, vlt_some_some]
    simp only [decide_eq_true_eq]
  · simp only [sb_bos_bear]
    rw [boolVal_eq_one, shifted_rollingMin_eval l h0 ht hn, inRange_eval l hn, vlt_some_some]
    simp only [decide_eq_true_eq]
  · simp only [sb_sweep_bull]
    rw [boolVal_eq_one, Bool.and_eq_true, shifted_rollingMin_eval l h0 ht hn,
      inRange_eval l hn, vlt_some_some, reversal_iff o c hn rthr]
    simp only [decide_eq_true_eq]
  · simp only [sb_sweep_bear]
    rw [boolVal_eq_one, Bool.and_eq_true, shifted_rollingMax_eval h h0 ht hn,
      inRange_eval h hn, vlt_some_some, reversal_down_iff o c hn rthr]
    simp only [decide_eq_true_eq]

/-- Witness for claim C5 at a concrete bar with a full prior window. -/
theorem c5_sweep_bos_formulas_witness :
    (0 < 1) ∧ (1 ≤ 1) ∧ (1 < 2) ∧
    sweepBosProp (qList [0, 1]) (qList [100, 100]) (qList [110, 105]) (qList [100, 90])
      (qList [105, 101]) (qList [1, 1]) 2 1 (1 / 500) 1 :=
  ⟨by decide, by decide, by decide,
   c5_sweep_bos_formulas _ _ _ _ _ _ 2 1 (1 / 500) 1 (by decide) (by decide) (by decide)⟩

/-- Claim C10: in the full pipeline the six boolean SMC columns are
always defined (pandas comparisons with NaN yield False, never NaN), so
the terminal row drop never removes a row on their account; and wherever
a column's own rolling input is undefined the column is the defined
value false: the four shifted-trailing columns on the first 20 bars, the
order-block columns where the trailing mean volume (first 19 bars) or
the centered pivot window (first 10 bars, or within 9 bars of the end)
is undefined. -/
theorem c10_smc_flags_defined (log : ℚ → Option ℚ) (sqrt : ℚ → ℚ)
    (ts o h l c v : Nat → ℚ) (n t : Nat) :
    smcGuardProp log sqrt ts o h l c v n t := by
  unfold smcGuardProp
  refine ⟨⟨?_, ?_, ?_, ?_, ?_, ?_⟩, ?_, ?_, ?_⟩
  · simp only [pipe_ob_high]
    exact boolVal_isSome _
  · simp only [pipe_ob_low]
    exact boolVal_isSome _
  · simp only [pipe_sweep_bull]
    exact boolVal_isSome _
  · simp only [pipe_sweep_bear]
    exact boolVal_isSome _
  · simp only [pipe_bos_bull]
    exact boolVal_isSome _
  · simp only [pipe_bos_bear]
    exact boolVal_isSome _
  · intro h20
    refine ⟨?_, ?_, ?_, ?_⟩
    · simp only [pipe_sweep_bull]
      rw [boolVal_eq_zero, shifted_rollingMin_undef _ h20, vlt_none_right]
      rfl
    · simp only [pipe_sweep_bear]
      rw [boolVal_eq_zero, shifted_rollingMax_undef _ h20, vlt_none_left]
      rfl
    · simp only [pipe_bos_bull]
      rw [boolVal_eq_zero, shifted_rollingMax_undef _ h20, vlt_none_left]
    · simp only [pipe_bos_bear]
      rw [boolVal_eq_zero, shifted_rollingMin_undef _ h20, vlt_none_right]
  · intro h19
    constructor
    · simp only [pipe_ob_high]
      rw [boolVal_eq_zero, rollingMean_undef _ (by omega), vmul_none_left, vlt_none_left,
        Bool.and_false]
    · simp only [pipe_ob_low]
      rw [boolVal_eq_zero, rollingMean_undef _ (by omega), vmul_none_left, vlt_none_left,
        Bool.and_false]
  · intro hc
    constructor
    · simp only [pipe_ob_high]
      rw [boolVal_eq_zero, centeredMax_undef _ (by omega), veq_none_left, Bool.false_and]
    · simp only [pipe_ob_low]
      rw [boolVal_eq_zero, centeredMin_undef _ (by omega), veq_none_left, Bool.false_and]

/-- Witness for claim C10 at a concrete short series and bar. -/
theorem c10_smc_flags_defined_witness :
    smcGuardProp log0 sqrt0 (qList [0, 1, 2]) (qList [100, 102, 108]) (qList [105, 110, 109])
      (qList [98, 101, 95]) (qList [102, 108, 97]) (qList [1000, 1200, 5000]) 3 0 :=
  c10_smc_flags_defined log0 sqrt0 _ _ _ _ _ _ 3 0

theorem fvg_cell (g a b r : ℚ) :
    ((a < b ∧ g < r) →
      (if vlt (some g) (if vlt (some a) (some b) then some r else some 0)
       then (if vlt (some a) (some b) then some r else some 0) else some 0) = some r) ∧
    ((¬ a < b ∨ r ≤ g) →
      (if vlt (some g) (if vlt (some a) (some b) then some r else some 0)
       then (if vlt (some a) (some b) then some r else some 0) else some 0) = some 0) := by
  constructor
  · rintro ⟨hab, hgr⟩
    simp [vlt_some_some, hab, hgr]
  · rintro (hab | hrg)
    · simp [vlt_some_some, hab]
    · by_cases hab2 : a < b
      · simp [vlt_some_some, hab2, not_lt.mpr hrg]
      · simp [vlt_some_some, hab2]

/-- Claim C6: for positive prices, the two fair-value-gap columns are
always defined and nonnegative; at the first bar they are zero (not an
undefined sentinel); at later bars each equals the raw relative gap
exactly when the gap exists and exceeds the threshold, and zero when the
gap is absent or at most the threshold. -/
theorem c6_fvg_values (ts o h l c v : Nat → ℚ) (n : Nat) (g : ℚ) (t : Nat)
    (hpos : ∀ i, i < n → 0 < h i ∧ 0 < l i) (hn : t < n) :
    fvgProp ts o h l c v n g t := by
  rcases Nat.eq_zero_or_pos t with rfl | htpos
  · have hb : getCol (detect_fair_value_gaps (mkDF ts o h l c v n) n g) "fvg_bull" 0 =
        some 0 := by
      simp only [fvg_bull_col, getCol_mkDF_high, getCol_mkDF_low]
      rw [shiftCol_zero_none _ 1 (by omega), vlt_none_left]
      simp
    have hbear : getCol (detect_fair_value_gaps (mkDF ts o h l c v n) n g) "fvg_bear" 0 =
        some 0 := by
      simp only [fvg_bear_col, getCol_mkDF_high, getCol_mkDF_low]
      rw [shiftCol_zero_none _ 1 (by omega), vlt_none_right]
      simp
    exact ⟨⟨0, hb, le_refl 0⟩, ⟨0, hbear, le_refl 0⟩, fun _ => ⟨hb, hbear⟩,
      fun h0 => absurd h0 (by omega), fun h0 => absurd h0 (by omega),
      fun h0 => absurd h0 (by omega), fun h0 => absurd h0 (by omega)⟩
  · have ht1 : t - 1 < n := by omega
    have hB : getCol (detect_fair_value_gaps (mkDF ts o h l c v n) n g) "fvg_bull" t =
        (if vlt (some g) (if vlt (some (h (t - 1))) (some (l t))
            then some (rawBull h l t) else some 0)
         then (if vlt (some (h (t - 1))) (some (l t))
            then some (rawBull h l t) else some 0) else some 0) := by
      simp only [fvg_bull_col, getCol_mkDF_high, getCol_mkDF_low]
      rw [shiftCol_one_eval _ (by omega), inRange_eval h ht1, inRange_eval l hn]
      simp only [vsub, vdiv]
      rfl
    have hBe : getCol (detect_fair_value_gaps (mkDF ts o h l c v n) n g) "fvg_bear" t =
        (if vlt (some g) (if vlt (some (h t)) (some (l (t - 1)))
            then some (rawBear h l t) else some 0)
         then (if vlt (some (h t)) (some (l (t - 1)))
            then some (rawBear h l t) else some 0) else some 0) := by
      simp only [fvg_bear_col, getCol_mkDF_high, getCol_mkDF_low]
      rw [shiftCol_one_eval _ (by omega), inRange_eval l ht1, inRange_eval h hn]
      simp only [vsub, vdiv]
      rfl
    have hcb := fvg_cell g (h (t - 1)) (l t) (rawBull h l t)
    have hce := fvg_cell g (h t) (l (t - 1)) (rawBear h l t)
    have hbull_nonneg : ∃ q,
        getCol (detect_fair_value_gaps (mkDF ts o h l c v n) n g) "fvg_bull" t = some q ∧
        0 ≤ q := by
      by_cases hab : h (t - 1) < l t
      · by_cases hgr : g < rawBull h l t
        · refine ⟨rawBull h l t, by rw [hB]; exact hcb.1 ⟨hab, hgr⟩, le_of_lt ?_⟩
          exact div_pos (sub_pos.mpr hab) (hpos (t - 1) ht1).1
        · exact ⟨0, by rw [hB]; exact hcb.2 (Or.inr (not_lt.mp hgr)), le_refl 0⟩
      · exact ⟨0, by rw [hB]; exact hcb.2 (Or.inl hab), le_refl 0⟩
    have hbear_nonneg : ∃ q,
        getCol (detect_fair_value_gaps (mkDF ts o h l c v n) n g) "fvg_bear" t = some q ∧
        0 ≤ q := by
      by_cases hab : h t < l (t - 1)
      · by_cases hgr : g < rawBear h l t
        · refine ⟨rawBear h l t, by rw [hBe]; exact hce.1 ⟨hab, hgr⟩, le_of_lt ?_⟩
          exact div_pos (sub_pos.mpr hab) (hpos (t - 1) ht1).2
        · exact ⟨0, by rw [hBe]; exact hce.2 (Or.inr (not_lt.mp hgr)), le_refl 0⟩
      · exact ⟨0, by rw [hBe]; exact hce.2 (Or.inl hab), le_refl 0⟩
    refine ⟨hbull_nonneg, hbear_nonneg, fun h0 => absurd h0 (by omega), ?_, ?_, ?_, ?_⟩
    · intro _ hab hgr
      rw [hB]
      exact hcb.1 ⟨hab, hgr⟩
    · intro _ hx
      rw [hB]
      exact hcb.2 hx
    · intro _ hab hgr
      rw [hBe]
      exact hce.1 ⟨hab, hgr⟩
    · intro _ hx
      rw [hBe]
      exact hce.2 hx

/-- Witness for claim C6 at bar 3 of the concrete 3-bar series. -/
theorem c6_fvg_values_witness :
    (∀ i, i < 3 → 0 < qList [105, 110, 109] i ∧ 0 < qList [98, 101, 95] i) ∧ (2 < 3) ∧
    fvgProp (qList [0, 1, 2]) (qList [100, 102, 108]) (qList [105, 110, 109])
      (qList [98, 101, 95]) (qList [102, 108, 97]) (qList [1000, 1200, 5000]) 3 (1 / 1000) 2 := by
  have hp : ∀ i, i < 3 → 0 < qList [105, 110, 109] i ∧ 0 < qList [98, 101, 95] i := by
    intro i hi
    interval_cases i <;> exact ⟨by decide, by decide⟩
  exact ⟨hp, by decide, c6_fvg_values _ _ _ _ _ _ 3 (1 / 1000) 2 hp (by decide)⟩

/-- Claim C9: when every bar satisfies `low ≤ high`, a bullish and a
bearish fair value gap can never coexist at the same bar: at least one
of the two columns is zero. -/
theorem c9_fvg_mutually_exclusive (ts o h l c v : Nat → ℚ) (n : Nat) (g : ℚ) (t : Nat)
    (hlh : ∀ i, i < n → l i ≤ h i) (hn : t < n) :
    getCol (detect_fair_value_gaps (mkDF ts o h l c v n) n g) "fvg_bull" t = some 0 ∨
    getCol (detect_fair_value_gaps (mkDF ts o h l c v n) n g) "fvg_bear" t = some 0 := by
  rcases Nat.eq_zero_or_pos t with rfl | htpos
  · left
    simp only [fvg_bull_col, getCol_mkDF_high, getCol_mkDF_low]
    rw [shiftCol_zero_none _ 1 (by omega), vlt_none_left]
    simp
  · have ht1 : t - 1 < n := by omega
    by_cases hab : h (t - 1) < l t
    · right
      have hnb : ¬ h t < l (t - 1) := by
        have h1 := hlh t hn
        have h2 := hlh (t - 1) ht1
        intro hx
        linarith
      simp only [fvg_bear_col, getCol_mkDF_high, getCol_mkDF_low]
      rw [shiftCol_one_eval _ (by omega), inRange_eval l ht1, inRange_eval h hn]
      simp [vlt_some_some, hnb]
    · left
      simp only [fvg_bull_col, getCol_mkDF_high, getCol_mkDF_low]
      rw [shiftCol_one_eval _ (by omega), inRange_eval h ht1, inRange_eval l hn]
      simp [vlt_some_some, hab]

/-- Witness for claim C9 at bar 3 of the concrete 3-bar series. -/
theorem c9_fvg_mutually_exclusive_witness :
    (∀ i, i < 3 → qList [98, 101, 95] i ≤ qList [105, 110, 109] i) ∧ (2 < 3) ∧
    (getCol (detect_fair_value_gaps (mkDF (qList [0, 1, 2]) (qList [100, 102, 108])
        (qList [105, 110, 109]) (qList [98, 101, 95]) (qList [102, 108, 97])
        (qList [1000, 1200, 5000]) 3) 3 (1 / 1000)) "fvg_bull" 2 = some 0 ∨
      getCol (detect_fair_value_gaps (mkDF (qList [0, 1, 2]) (qList [100, 102, 108])
        (qList [105, 110, 109]) (qList [98, 101, 95]) (qList [102, 108, 97])
        (qList [1000, 1200, 5000]) 3) 3 (1 / 1000)) "fvg_bear" 2 = some 0) := by
  have hp : ∀ i, i < 3 → qList [98, 101, 95] i ≤ qList [105, 110, 109] i := by
    intro i hi
    interval_cases i <;> decide
  exact ⟨hp, by decide, c9_fvg_mutually_exclusive _ _ _ _ _ _ 3 (1 / 1000) 2 hp (by decide)⟩
